import Mathlib

/-!
# Endpoint writer of the remoting layer: wire-envelope encoding and connection lifecycle

A shallow embedding of `remote/endpoint_writer.go`, with the message types of
`remote/messages.go`, `Remote.SendMessage` and `Remote.Start` of `remote/server.go`, and the
configuration of `remote/config.go` and `remote/config-opts.go`.

* Side effects of the writer (log lines, published events, messages sent to
  other actors, writes on the stream, `ctx.Stop`, `ctx.Stash`, a nil
  dereference) are recorded, in program order, as a list of `Effect`s.
* The external collaborators (the serializer, the outcome of a connection
  attempt, the result of a write on the stream, what the stream delivers to the
  background listener) are parameters.
* `int32(len(m))` and `id + 1` are computed in 32-bit two's complement.
-/

namespace Remote

/-! ## Data model -/

/-- The process identity `actor.PID`: `Address`, `Id` and the `uint32` field `RequestId`. -/
structure PID where
  Address : String
  Id : String
  RequestId : Nat
  deriving DecidableEq, Repr

/-- An opaque message payload (a Go `interface{}` value); the writer only hands it to the
serialization collaborators. -/
abbrev Message := Nat

/-- The `remoteDeliver` struct of `messages.go`. `header` is `none` for a nil header, else the
result of `ToMap()`; `sender` is `none` for a nil sender. The target is not nil: a request
reaches a writer through the address of its target. -/
structure remoteDeliver where
  header : Option (List (String × String))
  message : Message
  target : PID
  sender : Option PID
  serializerID : Int
  deriving DecidableEq, Repr

/-- Source method `Remote.SendMessage` of `server.go`: the `remoteDeliver` it builds and
hands to the endpoint manager. -/
def SendMessage (pid : PID) (header : Option (List (String × String))) (message : Message)
    (sender : Option PID) (serializerID : Int) : remoteDeliver :=
  { header := header, message := message, sender := sender, target := pid,
    serializerID := serializerID }

/-- The elements a `[]interface{}` handed to `sendEnvelopes` can hold: an
`EndpointTerminatedEvent` by pointer or by value, a `*remoteDeliver`, or a value of any other
dynamic type. -/
inductive Msg where
  | terminatedPtr (address : String)
  | terminatedVal (address : String)
  | deliver (rd : remoteDeliver)
  | other
  deriving DecidableEq, Repr

/-- The wire envelope `remoteProto.MessageEnvelope`. -/
structure MessageEnvelope where
  MessageHeader : Option (List (String × String))
  MessageData : List Nat
  Sender : Int
  Target : Int
  TypeId : Int
  SerializerId : Int
  TargetRequestId : Nat
  SenderRequestId : Nat
  deriving DecidableEq, Repr

/-- The wire batch `remoteProto.MessageBatch`. -/
structure MessageBatch where
  TypeNames : List String
  Targets : List PID
  Senders : List PID
  Envelopes : List MessageEnvelope
  deriving DecidableEq, Repr

/-- Observable actions of the writer, in program order. -/
inductive Effect where
  /-- A line written through `state.remote.Logger()`. -/
  | log (text : String)
  /-- The call `time.Sleep(2 * time.Second)`. -/
  | sleep (seconds : Nat)
  /-- The call `c.Receive(context.Background())` opening the stream of one connection attempt. -/
  | openStream (endpoint : String)
  /-- The `ConnectRequest` written on the freshly opened stream. -/
  | sendConnectRequest
  /-- The `go func()` listener started after a successful handshake. -/
  | spawnListener
  /-- The call `EventStream.Publish(&EndpointConnectedEvent{Address})`. -/
  | publishConnected (address : String)
  /-- The call `EventStream.Publish(&EndpointTerminatedEvent{Address})`. -/
  | publishTerminated (address : String)
  /-- The call `Root.Send(rd.sender, &actor.DeadLetterResponse{Target: rd.target})`. -/
  | sendDeadLetterResponse (receiver : PID) (target : PID)
  /-- The call `EventStream.Publish(&actor.DeadLetterEvent{Message, Sender, PID})`. -/
  | publishDeadLetterEvent (message : Message) (sender : Option PID) (pid : PID)
  /-- The call `state.stream.Send` of a message batch. -/
  | streamSend (batch : MessageBatch)
  /-- The call `ctx.Stash()`. -/
  | stash
  /-- The call `ctx.Stop(ctx.Self())`. -/
  | stop
  /-- A run-time panic, which ends the method. -/
  | panic (reason : String)
  deriving DecidableEq, Repr

/-! ## Machine integers and Go maps -/

/-- Conversion to `int32`: the low 32 bits, read in two's complement. -/
def int32 (n : Int) : Int := (n + 2147483648) % 4294967296 - 2147483648

/-- A Go `map[string]int32`: its lookup function together with `len(m)`. -/
structure GoMap where
  get : String → Option Int
  len : Nat

/-- The result of `make(map[string]int32)`. -/
def GoMap.empty : GoMap := ⟨fun _ => none, 0⟩

/-- The assignment `m[key] = v`. -/
def GoMap.set (m : GoMap) (key : String) (v : Int) : GoMap :=
  ⟨fun k => if k = key then some v else m.get k,
   if (m.get key).isSome then m.len else m.len + 1⟩

/-! ## The interning tables (`addToLookup`, `addToTargetLookup`, `addToSenderLookup`) -/

/-- Source function `addToLookup`; returns the index, the table and the updated map. -/
def addToLookup (m : GoMap) (name : String) (a : List String) : Int × List String × GoMap :=
  let max := int32 m.len
  match m.get name with
  | some id => (id, a, m)
  | none => (max, a ++ [name], m.set name max)

/-- Source function `addToTargetLookup`: the key is `pid.Address + "/" + pid.Id`, the stored
entry is a clone of the PID with `RequestId = 0`. -/
def addToTargetLookup (m : GoMap) (pid : PID) (arr : List PID) : Int × List PID × GoMap :=
  let max := int32 m.len
  let key := pid.Address ++ "/" ++ pid.Id
  match m.get key with
  | some id => (id, arr, m)
  | none => (max, arr ++ [{ pid with RequestId := 0 }], m.set key max)

/-- Source function `addToSenderLookup`: a nil sender gives index 0 and leaves the table
alone; otherwise as for targets, with the index shifted by one. -/
def addToSenderLookup (m : GoMap) (pid : Option PID) (arr : List PID) :
    Int × List PID × GoMap :=
  match pid with
  | none => (0, arr, m)
  | some pid =>
    let max := int32 m.len
    let key := pid.Address ++ "/" ++ pid.Id
    match m.get key with
    | some id => (int32 (id + 1), arr, m)
    | none => (int32 (max + 1), arr ++ [{ pid with RequestId := 0 }], m.set key max)

/-! ## The writer and `sendEnvelopes` -/

/-- The serialization collaborators of `sendEnvelopes`. -/
structure Serialization where
  /-- The type assertion `message.(RootSerializable)` followed by `v.Serialize()`: `none` when
  the message does not implement `RootSerializable`. -/
  rootSerialize : Message → Option (Except String Message)
  /-- The package function `Serialize(message, serializerID)`, giving bytes and type name. -/
  serialize : Message → Int → Except String (List Nat × String)

/-- The fields of `endpointWriter` the embedded methods read or write: the address, the
stream (`none` for nil; the handle is the endpoint it was opened on), and from the
configuration `MaxRetryCount` and `Scheme`. -/
structure endpointWriter where
  address : String
  stream : Option String
  MaxRetryCount : Int
  Scheme : String
  deriving DecidableEq, Repr

/-- The local variables of `sendEnvelopes` that live across loop iterations. -/
structure EncState where
  envelopes : List MessageEnvelope
  typeNames : GoMap
  typeNamesArr : List String
  targetNames : GoMap
  targetNamesArr : List PID
  senderNames : GoMap
  senderNamesArr : List PID
  /-- Declared in the `var` block and never assigned. -/
  serializerID : Int

/-- The state at loop entry. -/
def EncState.init : EncState :=
  ⟨[], GoMap.empty, [], GoMap.empty, [], GoMap.empty, [], 0⟩

/-- The header of the envelope: nil for a nil or empty header. -/
def envelopeHeader (h : Option (List (String × String))) : Option (List (String × String)) :=
  match h with
  | none => none
  | some hm => if hm.length = 0 then none else some hm

/-- The loop body of `sendEnvelopes` from the call of `Serialize` to the `append` of the
envelope; `message` is the payload after the `RootSerializable` step. -/
def encodeSerialized (ser : Serialization) (st : EncState) (rd : remoteDeliver)
    (header : Option (List (String × String))) (message : Message) : EncState × List Effect :=
  match ser.serialize message st.serializerID with
  | Except.error _ => (st, [Effect.log "EndpointWriter failed to serialize message"])
  | Except.ok (bytes, typeName) =>
    let types := addToLookup st.typeNames typeName st.typeNamesArr
    let targets := addToTargetLookup st.targetNames rd.target st.targetNamesArr
    let targetRequestID := rd.target.RequestId
    let senders := addToSenderLookup st.senderNames rd.sender st.senderNamesArr
    let senderRequestID := match rd.sender with
      | some s => s.RequestId
      | none => 0
    ({ st with
        envelopes := st.envelopes ++ [{
          MessageHeader := header
          MessageData := bytes
          Sender := senders.1
          Target := targets.1
          TypeId := types.1
          SerializerId := st.serializerID
          TargetRequestId := targetRequestID
          SenderRequestId := senderRequestID }]
        typeNames := types.2.2
        typeNamesArr := types.2.1
        targetNames := targets.2.2
        targetNamesArr := targets.2.1
        senderNames := senders.2.2
        senderNamesArr := senders.2.1 }, [])

/-- The loop body of `sendEnvelopes` for a `*remoteDeliver` on a present stream (from the
header computation to the `append`): the new state and the log lines written. -/
def encodeDeliver (ser : Serialization) (st : EncState) (rd : remoteDeliver) :
    EncState × List Effect :=
  let header := envelopeHeader rd.header
  match ser.rootSerialize rd.message with
  | some (Except.error _) => (st, [Effect.log "EndpointWriter failed to serialize message"])
  | some (Except.ok message) => encodeSerialized ser st rd header message
  | none => encodeSerialized ser st rd header rd.message

/-- The batch built from the tables and envelopes at loop exit. -/
def EncState.batch (st : EncState) : MessageBatch :=
  ⟨st.typeNamesArr, st.targetNamesArr, st.senderNamesArr, st.envelopes⟩

/-- The dead-letter redirection of one request while the stream is nil. -/
def deadLetter (rd : remoteDeliver) : Effect :=
  match rd.sender with
  | some s => Effect.sendDeadLetterResponse s rd.target
  | none => Effect.publishDeadLetterEvent rd.message rd.sender rd.target

/-- The code of `sendEnvelopes` after the loop: nothing for an empty envelope list, else the
write of the batch, followed on a write error by `ctx.Stash()` and `ctx.Stop(ctx.Self())`.
`sendErr` is the error returned by `state.stream.Send`. -/
def flushBatch (st : EncState) (sendErr : Option String) : List Effect :=
  if st.envelopes.length = 0 then []
  else
    Effect.streamSend st.batch ::
      (match sendErr with
       | some _ => [Effect.stash, Effect.log "gRPC Failed to send", Effect.stop]
       | none => [])

/-- The loop of `sendEnvelopes` over the remaining messages. -/
def sendEnvelopesLoop (ser : Serialization) (state : endpointWriter) (sendErr : Option String) :
    List Msg → EncState → List Effect
  | [], st => flushBatch st sendErr
  | Msg.terminatedPtr _ :: _, _ =>
    [Effect.log "Handling array wrapped terminate event", Effect.stop]
  | Msg.terminatedVal _ :: _, _ =>
    [Effect.log "Handling array wrapped terminate event", Effect.stop]
  | Msg.other :: _, _ => [Effect.panic "nil pointer dereference"]
  | Msg.deliver rd :: rest, st =>
    match state.stream with
    | none => deadLetter rd :: sendEnvelopesLoop ser state sendErr rest st
    | some _ =>
      let (st2, logs) := encodeDeliver ser st rd
      logs ++ sendEnvelopesLoop ser state sendErr rest st2

/-- Source method `endpointWriter.sendEnvelopes`. -/
def sendEnvelopes (ser : Serialization) (state : endpointWriter) (sendErr : Option String)
    (msg : List Msg) : List Effect :=
  sendEnvelopesLoop ser state sendErr msg EncState.init

/-! ## Connection set-up (`initializeInternal`, the retry loop, the listener) -/

/-- What the remote side does with one connection attempt: the write of the `ConnectRequest`
fails, the read of the reply fails, the reply is not a `ConnectResponse`, or it is one. -/
inductive Handshake where
  | sendError (err : String)
  | receiveError (err : String)
  | invalidResponse
  | connectResponse
  deriving DecidableEq, Repr

/-- Source method `endpointWriter.initializeInternal`: the writer afterwards, the returned
error (`none` for nil) and the effects. The stream is stored in the writer as soon as it is
opened, before the handshake. -/
def initializeInternal (state : endpointWriter) (h : Handshake) :
    endpointWriter × Option String × List Effect :=
  let endpoint := state.Scheme ++ "://" ++ state.address
  let state1 := { state with stream := some endpoint }
  let opened := [Effect.openStream endpoint, Effect.sendConnectRequest]
  match h with
  | Handshake.sendError err =>
    (state1, some err,
      opened ++ [Effect.log "EndpointWriter failed to send connect request"])
  | Handshake.receiveError err =>
    (state1, some err,
      opened ++ [Effect.log "EndpointWriter failed to receive connect response"])
  | Handshake.invalidResponse =>
    (state1, some "invalid connect response",
      opened ++ [Effect.log "EndpointWriter got invalid connect response"])
  | Handshake.connectResponse =>
    (state1, none,
      opened ++ [Effect.log "Received connect response", Effect.spawnListener,
        Effect.publishConnected state.address])

/-- The `for i := 0; i < MaxRetryCount; i++` loop of `initialize`, entered at counter `i` with
the current value of `err`; `fuel` bounds the number of iterations left and `attempts i` is the
outcome of the attempt made at counter `i`. -/
def retryLoop (attempts : Nat → Handshake) :
    Nat → Nat → endpointWriter → Option String → endpointWriter × Option String × List Effect
  | 0, _, state, err => (state, err, [])
  | fuel + 1, i, state, err =>
    if (i : Int) < state.MaxRetryCount then
      match initializeInternal state (attempts i) with
      | (state1, some e, eff) =>
        let (state2, err2, eff2) := retryLoop attempts fuel (i + 1) state1 (some e)
        (state2, err2,
          eff ++ [Effect.log "EndpointWriter failed to connect", Effect.sleep 2] ++ eff2)
      | (state1, none, eff) => (state1, none, eff)
    else (state, err, [])

/-- Source method `endpointWriter.initialize`: the retry loop, then the Terminated event when
`err` is not nil, else the closing log line. -/
def initializeWriter (state : endpointWriter) (attempts : Nat → Handshake) :
    endpointWriter × List Effect :=
  match retryLoop attempts state.MaxRetryCount.toNat 0 state none with
  | (state1, some _, eff) =>
    (state1, Effect.log "Started EndpointWriter. connecting" :: eff ++
      [Effect.publishTerminated state.address])
  | (state1, none, eff) =>
    (state1, Effect.log "Started EndpointWriter. connecting" :: eff ++
      [Effect.log "EndpointWriter connected"])

/-- What one `stream.Receive()` of the background listener returns: an error for which
`errors.Is(err, io.EOF)` holds, another error, or a message. -/
inductive RecvResult where
  | eof
  | error (err : String)
  | message
  deriving DecidableEq, Repr

/-- The `go func()` started by `initializeInternal`, run on the results its successive
`stream.Receive()` calls return: the effects and whether it is still listening once the
results are used up. -/
def listener (address : String) : List RecvResult → List Effect × Bool
  | [] => ([], true)
  | RecvResult.eof :: _ => ([Effect.log "EndpointWriter stream completed"], false)
  | RecvResult.error _ :: _ =>
    ([Effect.log "EndpointWriter lost connection", Effect.publishTerminated address], false)
  | RecvResult.message :: rest =>
    let (eff, listening) := listener address rest
    (Effect.log "EndpointWriter got DisconnectRequest form remote" ::
      Effect.publishTerminated address :: eff, listening)

/-- Source method `endpointWriter.closeClientConn`. -/
def closeClientConn (state : endpointWriter) : endpointWriter × List Effect :=
  ({ state with stream := none }, [Effect.log "EndpointWriter closing client connection"])

/-- The messages `endpointWriter.Receive` switches on. -/
inductive ActorMessage where
  | started
  | stopped
  | restarting
  | endpointTerminated (address : String)
  | restartAfterConnectFailure (err : String)
  | batch (msg : List Msg)
  | systemMessage
  | unknown
  deriving DecidableEq, Repr

/-- Source method `endpointWriter.Receive`. -/
def Receive (ser : Serialization) (attempts : Nat → Handshake) (sendErr : Option String)
    (state : endpointWriter) : ActorMessage → endpointWriter × List Effect
  | ActorMessage.started => initializeWriter state attempts
  | ActorMessage.stopped =>
    let (state1, eff) := closeClientConn state
    (state1, Effect.log "EndpointWriter stopped" :: eff)
  | ActorMessage.restarting =>
    let (state1, eff) := closeClientConn state
    (state1, Effect.log "EndpointWriter restarting" :: eff)
  | ActorMessage.endpointTerminated _ =>
    (state, [Effect.log "EndpointWriter received EndpointTerminatedEvent, stopping", Effect.stop])
  | ActorMessage.restartAfterConnectFailure err =>
    (state, [Effect.log "EndpointWriter initiating self-restart after failing to connect and a delay",
      Effect.panic err])
  | ActorMessage.batch msg => (state, sendEnvelopes ser state sendErr msg)
  | ActorMessage.systemMessage => (state, [])
  | ActorMessage.unknown => (state, [Effect.log "EndpointWriter received unknown message"])

/-! ## Configuration and `Remote.Start` (`config.go`, `config-opts.go`, `server.go`) -/

/-- The struct `HTTPServerOptions` of `config.go`; durations are in nanoseconds. -/
structure HTTPServerOptions where
  ReadHeaderTimeout : Nat
  ReadTimeout : Nat
  WriteTimeout : Nat
  MaxHeaderBytes : Int
  deriving DecidableEq, Repr

/-- The fields of the struct `Config` of `config.go` that `Remote.Start` reads, with the two
TLS fields. A `*tls.Config` is an opaque handle, `none` for nil. -/
structure Config where
  Host : String
  Port : Int
  AdvertisedHost : String
  ConnectServerHTTPOptions : HTTPServerOptions
  ConnectServerTLSConfig : Option Nat
  ConnectClientTLSConfig : Option Nat
  deriving DecidableEq, Repr

/-- Source function `defaultConfig`, on the fields kept in `Config`. -/
def defaultConfig : Config where
  Host := ""
  Port := 0
  AdvertisedHost := ""
  ConnectServerHTTPOptions :=
    { ReadHeaderTimeout := 1000000000
      ReadTimeout := 300000000000
      WriteTimeout := 300000000000
      MaxHeaderBytes := 8 * 1024 }
  ConnectServerTLSConfig := none
  ConnectClientTLSConfig := none

/-- The type `ConfigOption` of `config-opts.go`. -/
abbrev ConfigOption := Config → Config

/-- Source function `WithAdvertisedHost`. -/
def WithAdvertisedHost (address : String) : ConfigOption :=
  fun config => { config with AdvertisedHost := address }

/-- Source function `WithCServerTlsConfig` ("sets the https server config"). -/
def WithCServerTlsConfig (tlsConfig : Option Nat) : ConfigOption :=
  fun config => { config with ConnectServerTLSConfig := tlsConfig }

/-- Source function `WithClientTlsConfig` ("sets the https client config"). -/
def WithClientTlsConfig (tlsConfig : Option Nat) : ConfigOption :=
  fun config => { config with ConnectClientTLSConfig := tlsConfig }

/-- Source function `newConfig`: the options applied in order to the default. -/
def newConfig (options : List ConfigOption) : Config :=
  options.foldl (fun config option => option config) defaultConfig

/-- Source function `Configure`. -/
def Configure (host : String) (port : Int) (options : List ConfigOption) : Config :=
  { newConfig options with Host := host, Port := port }

/-- The fields of the `http.Server` literal built by `Remote.Start` (the handler apart). -/
structure HttpServer where
  Addr : String
  TLSConfig : Option Nat
  ReadHeaderTimeout : Nat
  ReadTimeout : Nat
  WriteTimeout : Nat
  MaxHeaderBytes : Int
  deriving DecidableEq, Repr

/-- Source method `Remote.Start`: the `http.Server` it builds and serves; `listenAddr` is
`l.Addr().String()` of the listener it opened. -/
def Start (config : Config) (listenAddr : String) : HttpServer :=
  let address := if config.AdvertisedHost ≠ "" then config.AdvertisedHost else listenAddr
  { Addr := address
    TLSConfig := config.ConnectClientTLSConfig
    ReadHeaderTimeout := config.ConnectServerHTTPOptions.ReadHeaderTimeout
    ReadTimeout := config.ConnectServerHTTPOptions.ReadTimeout
    WriteTimeout := config.ConnectServerHTTPOptions.WriteTimeout
    MaxHeaderBytes := config.ConnectServerHTTPOptions.MaxHeaderBytes }

/-! ## Reading a trace -/

/-- The batches written on the stream, in order. -/
def sentBatches : List Effect → List MessageBatch
  | [] => []
  | Effect.streamSend b :: rest => b :: sentBatches rest
  | _ :: rest => sentBatches rest

/-! ## Notions used in the statements -/

/-- The outcome of the serialization steps of the loop body for one request under serializer
id `sid`: the bytes and type name, or `none` when `RootSerializable.Serialize` or `Serialize`
returns an error. -/
def serialized (ser : Serialization) (sid : Int) (rd : remoteDeliver) :
    Option (List Nat × String) :=
  match ser.rootSerialize rd.message with
  | some (Except.error _) => none
  | some (Except.ok m) =>
    match ser.serialize m sid with
    | Except.ok r => some r
    | Except.error _ => none
  | none =>
    match ser.serialize rd.message sid with
    | Except.ok r => some r
    | Except.error _ => none

/-- The loop body of `sendEnvelopes` run over a list of requests on a present stream. -/
def encodeAll (ser : Serialization) (st : EncState) (rds : List remoteDeliver) : EncState :=
  rds.foldl (fun s rd => (encodeDeliver ser s rd).1) st

/-- The original request id of the sender, 0 when there is none. -/
def senderRequestId (rd : remoteDeliver) : Nat :=
  match rd.sender with
  | some s => s.RequestId
  | none => 0

/-- The copy made from request `rd` in envelope `e` under serializer id `sid`. -/
def carries (ser : Serialization) (sid : Int) (e : MessageEnvelope) (rd : remoteDeliver) : Prop :=
  ∃ r, serialized ser sid rd = some r ∧ e.MessageData = r.1 ∧
    e.MessageHeader = envelopeHeader rd.header ∧ e.SerializerId = sid ∧
    e.TargetRequestId = rd.target.RequestId ∧ e.SenderRequestId = senderRequestId rd

/-- The number of connection attempts in a trace (streams opened). -/
def connectionAttempts (tr : List Effect) : Nat :=
  (tr.filter (fun e => match e with
    | Effect.openStream _ => true
    | _ => false)).length

/-- The addresses of the `EndpointTerminatedEvent`s published in a trace, in order. -/
def terminatedEvents (tr : List Effect) : List String :=
  tr.filterMap (fun e => match e with
    | Effect.publishTerminated a => some a
    | _ => none)

/-- The addresses of the `EndpointConnectedEvent`s published in a trace, in order. -/
def connectedEvents (tr : List Effect) : List String :=
  tr.filterMap (fun e => match e with
    | Effect.publishConnected a => some a
    | _ => none)

/-- The table after one more name has been seen: unchanged when the name is in it, else with
the name appended. -/
def internNew (acc : List String) (x : String) : List String :=
  if x ∈ acc then acc else acc ++ [x]

/-- The type names of the requests that serialize under serializer id `sid`, in request
order. -/
def serializedTypeNames (ser : Serialization) (sid : Int) (rds : List remoteDeliver) :
    List String :=
  rds.filterMap (fun rd => (serialized ser sid rd).map Prod.snd)

/-- The link between a lookup map and its table: the map has one key per table entry and
sends each entry to its position, converted to `int32`. -/
def TableInv (m : GoMap) (arr : List String) : Prop :=
  m.len = arr.length ∧ arr.Nodup ∧
    ∀ k, m.get k = if k ∈ arr then some (int32 (arr.indexOf k : Nat)) else none

/-- The PID with its `RequestId` set to 0. -/
def normalized (p : PID) : PID := { p with RequestId := 0 }

/-- The key under which `addToTargetLookup` and `addToSenderLookup` look a PID up. -/
def pidKey (p : PID) : String := p.Address ++ "/" ++ p.Id

/-- The link between the target lookup map and the targets table of a writer whose requests
all have targets at address `a`: the table has no duplicates and holds normalized PIDs at
`a`, the map has one key per table entry, and it sends the key of a PID at `a` to the
position of the normalized PID in the table, converted to `int32`. -/
def PidTableInv (a : String) (m : GoMap) (arr : List PID) : Prop :=
  m.len = arr.length ∧ arr.Nodup ∧ (∀ p ∈ arr, p.Address = a) ∧
    ∀ q : PID, q.Address = a →
      m.get (pidKey q) =
        if normalized q ∈ arr then some (int32 ((arr.indexOf (normalized q) : Nat) : Int))
        else none

/-- A serializer used for evaluation: message 99 is rejected, every other message `m` gives
the bytes `[m, serializer id]` and the type name "even" or "odd". -/
def sampleSer : Serialization where
  rootSerialize := fun _ => none
  serialize := fun m sid =>
    if m = 99 then Except.error "unknown type"
    else Except.ok ([m, sid.toNat], if m % 2 = 0 then "even" else "odd")

/-- A writer whose stream is present. -/
def connectedWriter : endpointWriter := ⟨"host:1", some "http://host:1", 5, "http"⟩

/-- A writer whose stream is nil. -/
def idleWriter : endpointWriter := ⟨"host:1", none, 5, "http"⟩

/-- A request for the target with address "a" and id "b/c". -/
def reqSlashInId : remoteDeliver := ⟨none, 2, ⟨"a", "b/c", 9⟩, none, 0⟩

/-- A request from sender ("s/t", "u") to target ("n1/x", "y"). -/
def reqFirstOfKey : remoteDeliver := ⟨none, 1, ⟨"n1/x", "y", 0⟩, some ⟨"s/t", "u", 5⟩, 0⟩

/-- A request to ("host:1", "worker") from sender ("node/1", "client"). -/
def reqFromNodeSlash : remoteDeliver :=
  ⟨none, 4, ⟨"host:1", "worker", 0⟩, some ⟨"node/1", "client", 1⟩, 0⟩

/-- A request to ("host:1", "worker") from sender ("node", "1/client"). -/
def reqFromIdSlash : remoteDeliver :=
  ⟨none, 6, ⟨"host:1", "worker", 0⟩, some ⟨"node", "1/client", 2⟩, 0⟩

/-- A request that asks for serializer 1, as built by `SendMessage`. -/
def reqSerializerOne : remoteDeliver := SendMessage ⟨"host:1", "worker", 0⟩ none 8 none 1

/-- A request whose message the sample serializer rejects. -/
def reqUnserializable : remoteDeliver := ⟨none, 99, ⟨"host:1", "broken", 3⟩, none, 0⟩

/-- A writer without stream configured with `MaxRetryCount = 0`. -/
def noRetryWriter : endpointWriter := ⟨"host:1", none, 0, "http"⟩

/-- A writer without stream configured with `MaxRetryCount = 1`. -/
def oneTryWriter : endpointWriter := ⟨"host:1", none, 1, "http"⟩

/-- A request to ("host:1", "a/b") with request id 7. -/
def reqToSlashId : remoteDeliver := ⟨none, 1, ⟨"host:1", "a/b", 7⟩, none, 0⟩

/-- A request to ("host:1", "a") with request id 9. -/
def reqToPlainId : remoteDeliver := ⟨none, 2, ⟨"host:1", "a", 9⟩, none, 0⟩

/-- A second request to ("host:1", "a/b"), with request id 11. -/
def reqToSlashIdAgain : remoteDeliver := ⟨none, 3, ⟨"host:1", "a/b", 11⟩, none, 0⟩

/-- A request to ("host:1", "x/y") from sender ("s/t", "u"). -/
def reqKeyHolder : remoteDeliver := ⟨none, 1, ⟨"host:1", "x/y", 0⟩, some ⟨"s/t", "u", 5⟩, 0⟩

/-- A request to ("host:1", "x") from sender ("s", "t/u"). -/
def reqKeyTaker : remoteDeliver := ⟨none, 3, ⟨"host:1", "x", 0⟩, some ⟨"s", "t/u", 6⟩, 0⟩

/-! ## Lemmas on the loop of `sendEnvelopes` and on the retry loop -/

theorem sentBatches_flushBatch (st : EncState) (sendErr : Option String) :
    sentBatches (flushBatch st sendErr) = if st.envelopes.length = 0 then [] else [st.batch] := by
  unfold flushBatch
  split
  · rfl
  · cases sendErr <;> rfl

theorem encodeDeliver_failed (ser : Serialization) (st : EncState) (rd : remoteDeliver)
    (h : serialized ser st.serializerID rd = none) :
    encodeDeliver ser st rd =
      (st, [Effect.log "EndpointWriter failed to serialize message"]) := by
  unfold serialized at h
  unfold encodeDeliver encodeSerialized
  cases hr : ser.rootSerialize rd.message with
  | none =>
    simp only [hr] at h ⊢
    cases hs : ser.serialize rd.message st.serializerID with
    | error e => rfl
    | ok r => simp [hs] at h
  | some x =>
    cases x with
    | error e => rfl
    | ok m =>
      simp only [hr] at h ⊢
      cases hs : ser.serialize m st.serializerID with
      | error e => rfl
      | ok r => simp [hs] at h

theorem encodeDeliver_ok (ser : Serialization) (st : EncState) (rd : remoteDeliver)
    (bytes : List Nat) (typeName : String)
    (h : serialized ser st.serializerID rd = some (bytes, typeName)) :
    encodeDeliver ser st rd =
      ({ envelopes := st.envelopes ++ [{
            MessageHeader := envelopeHeader rd.header
            MessageData := bytes
            Sender := (addToSenderLookup st.senderNames rd.sender st.senderNamesArr).1
            Target := (addToTargetLookup st.targetNames rd.target st.targetNamesArr).1
            TypeId := (addToLookup st.typeNames typeName st.typeNamesArr).1
            SerializerId := st.serializerID
            TargetRequestId := rd.target.RequestId
            SenderRequestId := senderRequestId rd }]
         typeNames := (addToLookup st.typeNames typeName st.typeNamesArr).2.2
         typeNamesArr := (addToLookup st.typeNames typeName st.typeNamesArr).2.1
         targetNames := (addToTargetLookup st.targetNames rd.target st.targetNamesArr).2.2
         targetNamesArr := (addToTargetLookup st.targetNames rd.target st.targetNamesArr).2.1
         senderNames := (addToSenderLookup st.senderNames rd.sender st.senderNamesArr).2.2
         senderNamesArr := (addToSenderLookup st.senderNames rd.sender st.senderNamesArr).2.1
         serializerID := st.serializerID }, []) := by
  unfold serialized at h
  unfold encodeDeliver encodeSerialized senderRequestId
  cases hr : ser.rootSerialize rd.message with
  | none =>
    simp only [hr] at h ⊢
    cases hs : ser.serialize rd.message st.serializerID with
    | error e => simp [hs] at h
    | ok r =>
      simp only [hs, Option.some.injEq] at h
      subst h
      rfl
  | some x =>
    cases x with
    | error e => simp [hr] at h
    | ok m =>
      simp only [hr] at h ⊢
      cases hs : ser.serialize m st.serializerID with
      | error e => simp [hs] at h
      | ok r =>
        simp only [hs, Option.some.injEq] at h
        subst h
        rfl

theorem encodeDeliver_serializerID (ser : Serialization) (st : EncState) (rd : remoteDeliver) :
    (encodeDeliver ser st rd).1.serializerID = st.serializerID := by
  cases h : serialized ser st.serializerID rd with
  | none => rw [encodeDeliver_failed ser st rd h]
  | some r => rw [encodeDeliver_ok ser st rd r.1 r.2 h]

theorem encodeDeliver_batches (ser : Serialization) (st : EncState) (rd : remoteDeliver)
    (xs : List Effect) :
    sentBatches ((encodeDeliver ser st rd).2 ++ xs) = sentBatches xs := by
  cases h : serialized ser st.serializerID rd with
  | none => rw [encodeDeliver_failed ser st rd h]; rfl
  | some r => rw [encodeDeliver_ok ser st rd r.1 r.2 h]; rfl

theorem encodeAll_serializerID (ser : Serialization) (rds : List remoteDeliver) :
    ∀ st : EncState, (encodeAll ser st rds).serializerID = st.serializerID := by
  induction rds with
  | nil => intro st; rfl
  | cons rd rest ih =>
    intro st
    show (encodeAll ser (encodeDeliver ser st rd).1 rest).serializerID = _
    rw [ih, encodeDeliver_serializerID]

/-- On a present stream, the batches written for a list of requests are those of the flush of
the state reached by running the loop body over the list. -/
theorem sentBatches_loop (ser : Serialization) (state : endpointWriter) (sendErr : Option String)
    (s : String) (hs : state.stream = some s) (rds : List remoteDeliver) :
    ∀ st : EncState,
      sentBatches (sendEnvelopesLoop ser state sendErr (rds.map Msg.deliver) st) =
        sentBatches (flushBatch (encodeAll ser st rds) sendErr) := by
  induction rds with
  | nil => intro st; rfl
  | cons rd rest ih =>
    intro st
    simp only [List.map_cons, sendEnvelopesLoop, hs]
    rw [encodeDeliver_batches, ih]
    rfl

theorem encodeAll_cons (ser : Serialization) (st : EncState) (rd : remoteDeliver)
    (rest : List remoteDeliver) :
    encodeAll ser st (rd :: rest) = encodeAll ser (encodeDeliver ser st rd).1 rest := rfl

theorem encodeDeliver_envelopes (ser : Serialization) (st : EncState) (rd : remoteDeliver)
    (r : List Nat × String) (h : serialized ser st.serializerID rd = some r) :
    ∃ e, (encodeDeliver ser st rd).1.envelopes = st.envelopes ++ [e] ∧
      carries ser st.serializerID e rd := by
  rw [encodeDeliver_ok ser st rd r.1 r.2 h]
  exact ⟨_, rfl, r, h, rfl, rfl, rfl, rfl, rfl⟩

theorem encodeAll_envelopes (ser : Serialization) (sid : Int) (rds : List remoteDeliver) :
    ∀ st : EncState, st.serializerID = sid →
      ∃ es, (encodeAll ser st rds).envelopes = st.envelopes ++ es ∧
        List.Forall₂ (carries ser sid) es
          (rds.filter (fun rd => (serialized ser sid rd).isSome)) := by
  induction rds with
  | nil => intro st _; exact ⟨[], by simp [encodeAll], List.Forall₂.nil⟩
  | cons rd rest ih =>
    intro st hst
    rw [encodeAll_cons]
    have hsid : (encodeDeliver ser st rd).1.serializerID = sid := by
      rw [encodeDeliver_serializerID]; exact hst
    obtain ⟨es, hes, hall⟩ := ih (encodeDeliver ser st rd).1 hsid
    cases h : serialized ser sid rd with
    | none =>
      have h2 : serialized ser st.serializerID rd = none := by rw [hst]; exact h
      have h3 : (encodeDeliver ser st rd).1 = st := by rw [encodeDeliver_failed ser st rd h2]
      rw [h3] at hes ⊢
      refine ⟨es, hes, ?_⟩
      simpa [List.filter_cons, h] using hall
    | some r =>
      have h2 : serialized ser st.serializerID rd = some r := by rw [hst]; exact h
      obtain ⟨e, he, hc⟩ := encodeDeliver_envelopes ser st rd r h2
      rw [hst] at hc
      refine ⟨e :: es, ?_, ?_⟩
      · rw [hes, he]; simp
      · simp only [List.filter_cons, h, Option.isSome_some, if_true]
        exact List.Forall₂.cons hc hall

theorem encodeAll_filter (ser : Serialization) (sid : Int) (rds : List remoteDeliver) :
    ∀ st : EncState, st.serializerID = sid →
      encodeAll ser st (rds.filter (fun rd => (serialized ser sid rd).isSome)) =
        encodeAll ser st rds := by
  induction rds with
  | nil => intro st _; rfl
  | cons rd rest ih =>
    intro st hst
    cases h : serialized ser sid rd with
    | none =>
      have h2 : serialized ser st.serializerID rd = none := by rw [hst]; exact h
      simp only [List.filter_cons, h, Option.isSome_none, Bool.false_eq_true, if_false]
      rw [encodeAll_cons, encodeDeliver_failed ser st rd h2]
      exact ih st hst
    | some r =>
      simp only [List.filter_cons, h, Option.isSome_some, if_true]
      rw [encodeAll_cons, encodeAll_cons]
      exact ih _ (by rw [encodeDeliver_serializerID]; exact hst)

theorem addToTargetLookup_normalized (m : GoMap) (pid : PID) (arr : List PID)
    (h : ∀ p ∈ arr, p.RequestId = 0) :
    ∀ p ∈ (addToTargetLookup m pid arr).2.1, p.RequestId = 0 := by
  unfold addToTargetLookup
  cases hk : m.get (pid.Address ++ "/" ++ pid.Id) with
  | some id => simpa [hk] using h
  | none =>
    intro p hp
    simp only [hk, List.mem_append, List.mem_singleton] at hp
    rcases hp with hp | hp
    · exact h p hp
    · rw [hp]

theorem addToSenderLookup_normalized (m : GoMap) (pid : Option PID) (arr : List PID)
    (h : ∀ p ∈ arr, p.RequestId = 0) :
    ∀ p ∈ (addToSenderLookup m pid arr).2.1, p.RequestId = 0 := by
  cases pid with
  | none => simpa [addToSenderLookup] using h
  | some pid =>
    unfold addToSenderLookup
    cases hk : m.get (pid.Address ++ "/" ++ pid.Id) with
    | some id => simpa [hk] using h
    | none =>
      intro p hp
      simp only [hk, List.mem_append, List.mem_singleton] at hp
      rcases hp with hp | hp
      · exact h p hp
      · rw [hp]

theorem encodeAll_normalized (ser : Serialization) (rds : List remoteDeliver) :
    ∀ st : EncState,
      (∀ p ∈ st.targetNamesArr, p.RequestId = 0) → (∀ p ∈ st.senderNamesArr, p.RequestId = 0) →
      (∀ p ∈ (encodeAll ser st rds).targetNamesArr, p.RequestId = 0) ∧
        (∀ p ∈ (encodeAll ser st rds).senderNamesArr, p.RequestId = 0) := by
  induction rds with
  | nil => intro st ht hs; exact ⟨ht, hs⟩
  | cons rd rest ih =>
    intro st ht hs
    rw [encodeAll_cons]
    cases h : serialized ser st.serializerID rd with
    | none => rw [encodeDeliver_failed ser st rd h]; exact ih st ht hs
    | some r =>
      rw [encodeDeliver_ok ser st rd r.1 r.2 h]
      exact ih _ (addToTargetLookup_normalized _ _ _ ht) (addToSenderLookup_normalized _ _ _ hs)

/-- What is written on a present stream for a list of requests: nothing when no request
serializes, else one batch, the one of the state reached by the loop body, whose envelopes
pair off with the requests that serialize. -/
theorem sentBatches_deliver (ser : Serialization) (state : endpointWriter)
    (sendErr : Option String) (s : String) (hs : state.stream = some s)
    (rds : List remoteDeliver) :
    (rds.filter (fun rd => (serialized ser 0 rd).isSome) = [] →
      sentBatches (sendEnvelopes ser state sendErr (rds.map Msg.deliver)) = []) ∧
    (rds.filter (fun rd => (serialized ser 0 rd).isSome) ≠ [] →
      sentBatches (sendEnvelopes ser state sendErr (rds.map Msg.deliver)) =
          [(encodeAll ser EncState.init rds).batch]) ∧
    List.Forall₂ (carries ser 0) (encodeAll ser EncState.init rds).batch.Envelopes
      (rds.filter (fun rd => (serialized ser 0 rd).isSome)) := by
  obtain ⟨es, hes, hall⟩ := encodeAll_envelopes ser 0 rds EncState.init rfl
  have henv : (encodeAll ser EncState.init rds).envelopes = es := by
    rw [hes]; rfl
  have hlen := hall.length_eq
  unfold sendEnvelopes
  rw [sentBatches_loop ser state sendErr s hs rds, sentBatches_flushBatch, henv]
  refine ⟨?_, ?_, ?_⟩
  · intro h0
    rw [h0] at hlen
    simp [hlen]
  · intro h0
    have : es.length ≠ 0 := by
      rw [hlen]
      exact fun h => h0 (List.length_eq_zero.mp h)
    simp [this]
  · show List.Forall₂ _ (encodeAll ser EncState.init rds).envelopes _
    rw [henv]; exact hall

theorem initializeInternal_failed (state : endpointWriter) (h : Handshake)
    (hf : h ≠ Handshake.connectResponse) :
    ∃ e t, initializeInternal state h =
      ({ state with stream := some (state.Scheme ++ "://" ++ state.address) }, some e,
        [Effect.openStream (state.Scheme ++ "://" ++ state.address), Effect.sendConnectRequest,
          Effect.log t]) := by
  cases h with
  | sendError err => exact ⟨err, _, rfl⟩
  | receiveError err => exact ⟨err, _, rfl⟩
  | invalidResponse => exact ⟨_, _, rfl⟩
  | connectResponse => exact absurd rfl hf

theorem retryLoop_all_failed (attempts : Nat → Handshake) (N : Int)
    (hf : ∀ j : Nat, (j : Int) < N → attempts j ≠ Handshake.connectResponse) :
    ∀ (fuel i : Nat) (state : endpointWriter) (err : Option String),
      state.MaxRetryCount = N → N = (i : Int) + fuel →
      (retryLoop attempts fuel i state err).1.address = state.address ∧
      (err ≠ none ∨ 0 < fuel → (retryLoop attempts fuel i state err).2.1 ≠ none) ∧
      connectionAttempts (retryLoop attempts fuel i state err).2.2 = fuel ∧
      terminatedEvents (retryLoop attempts fuel i state err).2.2 = [] ∧
      connectedEvents (retryLoop attempts fuel i state err).2.2 = [] ∧
      Effect.stop ∉ (retryLoop attempts fuel i state err).2.2 := by
  intro fuel
  induction fuel with
  | zero =>
    intro i state err _ _
    refine ⟨rfl, ?_, rfl, rfl, rfl, ?_⟩
    · intro h
      rcases h with h | h
      · exact h
      · exact absurd h (Nat.lt_irrefl 0)
    · simp [retryLoop]
  | succ fuel ih =>
    intro i state err hN hmax
    have hlt : (i : Int) < state.MaxRetryCount := by rw [hN, hmax]; push_cast; omega
    obtain ⟨e, t, hint⟩ :=
      initializeInternal_failed state (attempts i) (hf i (by rw [← hN]; exact hlt))
    have hmax1 : N = ((i + 1 : Nat) : Int) + fuel := by rw [hmax]; push_cast; omega
    obtain ⟨h1, h2, h3, h4, h5, h6⟩ :=
      ih (i + 1) { state with stream := some (state.Scheme ++ "://" ++ state.address) }
        (some e) hN hmax1
    simp only [retryLoop, hlt, if_true, hint]
    refine ⟨h1, ?_, ?_, ?_, ?_, ?_⟩
    · intro _
      exact h2 (Or.inl (by simp))
    · simp only [connectionAttempts, List.filter_append, List.length_append] at h3 ⊢
      simp [List.filter_cons, h3]
      omega
    · simp only [terminatedEvents, List.filterMap_append] at h4 ⊢
      simp [List.filterMap_cons, h4]
    · simp only [connectedEvents, List.filterMap_append] at h5 ⊢
      simp [List.filterMap_cons, h5]
    · simp [h6]

/-- With `MaxRetryCount ≥ 1` and only failing attempts, `initialize` runs the whole loop and
ends with the Terminated event. -/
theorem initializeWriter_all_failed (state : endpointWriter) (attempts : Nat → Handshake)
    (hN : 1 ≤ state.MaxRetryCount)
    (hf : ∀ i : Nat, (i : Int) < state.MaxRetryCount → attempts i ≠ Handshake.connectResponse) :
    ∃ state1 eff,
      initializeWriter state attempts =
        (state1, Effect.log "Started EndpointWriter. connecting" :: eff ++
          [Effect.publishTerminated state.address]) ∧
      state1.address = state.address ∧
      (connectionAttempts eff : Int) = state.MaxRetryCount ∧
      terminatedEvents eff = [] ∧ connectedEvents eff = [] ∧ Effect.stop ∉ eff := by
  have hfuel : state.MaxRetryCount = ((0 : Nat) : Int) + state.MaxRetryCount.toNat := by
    rw [Int.toNat_of_nonneg (by omega)]; simp
  obtain ⟨h1, h2, h3, h4, h5, h6⟩ :=
    retryLoop_all_failed attempts state.MaxRetryCount hf state.MaxRetryCount.toNat 0 state none
      rfl hfuel
  have hpos : 0 < state.MaxRetryCount.toNat := by omega
  unfold initializeWriter
  rcases hr : retryLoop attempts state.MaxRetryCount.toNat 0 state none with ⟨s1, e1, eff⟩
  rw [hr] at h1 h2 h3 h4 h5 h6
  cases e1 with
  | none => exact absurd rfl (h2 (Or.inr hpos))
  | some e =>
    refine ⟨s1, eff, rfl, h1, ?_, h4, h5, h6⟩
    show ((connectionAttempts eff : Nat) : Int) = _
    rw [h3, Int.toNat_of_nonneg (by omega)]

theorem deadLetter_eq (rd : remoteDeliver) :
    deadLetter rd =
      (match rd.sender with
       | some s => Effect.sendDeadLetterResponse s rd.target
       | none => Effect.publishDeadLetterEvent rd.message none rd.target) := by
  unfold deadLetter
  cases h : rd.sender <;> rfl

theorem sendEnvelopesLoop_absent (ser : Serialization) (state : endpointWriter)
    (sendErr : Option String) (h : state.stream = none) (rest : List Msg) (st : EncState)
    (rds : List remoteDeliver) :
    sendEnvelopesLoop ser state sendErr (rds.map Msg.deliver ++ rest) st =
      rds.map deadLetter ++ sendEnvelopesLoop ser state sendErr rest st := by
  induction rds with
  | nil => rfl
  | cons rd more ih =>
    simp only [List.map_cons, List.cons_append, sendEnvelopesLoop, h]
    exact congrArg (List.cons (deadLetter rd)) ih

theorem sentBatches_deadLetters (rds : List remoteDeliver) (tail : List Effect) :
    sentBatches (rds.map deadLetter ++ tail) = sentBatches tail := by
  induction rds with
  | nil => rfl
  | cons rd more ih =>
    simp only [List.map_cons, List.cons_append]
    unfold deadLetter
    cases rd.sender <;> exact ih

theorem listener_messages (address : String) (n : Nat) (rest : List RecvResult) :
    terminatedEvents (listener address (List.replicate n RecvResult.message ++ rest)).1 =
        List.replicate n address ++ terminatedEvents (listener address rest).1 ∧
      (listener address (List.replicate n RecvResult.message ++ rest)).2 =
        (listener address rest).2 := by
  induction n with
  | zero => exact ⟨rfl, rfl⟩
  | succ n ih =>
    simp only [List.replicate_succ, List.cons_append, listener]
    refine ⟨?_, ih.2⟩
    simp only [terminatedEvents, List.filterMap_cons] at ih ⊢
    exact congrArg (List.cons address) ih.1

theorem encodeDeliver_logs (ser : Serialization) (st : EncState) (rd : remoteDeliver) :
    ∀ e ∈ (encodeDeliver ser st rd).2, ∃ t, e = Effect.log t := by
  cases h : serialized ser st.serializerID rd with
  | none =>
    rw [encodeDeliver_failed ser st rd h]
    intro e he
    exact ⟨_, List.mem_singleton.mp he⟩
  | some r =>
    rw [encodeDeliver_ok ser st rd r.1 r.2 h]
    intro e he
    simp at he

theorem deadLetter_kind (rd : remoteDeliver) :
    (∃ p q, deadLetter rd = Effect.sendDeadLetterResponse p q) ∨
      ∃ m p q, deadLetter rd = Effect.publishDeadLetterEvent m p q := by
  unfold deadLetter
  cases rd.sender with
  | none => exact Or.inr ⟨_, _, _, rfl⟩
  | some p => exact Or.inl ⟨_, _, rfl⟩

/-- On a present stream the loop over a list of requests writes log lines only and hands the
state reached by the loop body to the rest of the list. -/
theorem sendEnvelopesLoop_present (ser : Serialization) (state : endpointWriter) (s : String)
    (hs : state.stream = some s) (rds : List remoteDeliver) :
    ∀ st : EncState, ∃ logs, (∀ e ∈ logs, ∃ t, e = Effect.log t) ∧
      ∀ (sendErr : Option String) (rest : List Msg),
        sendEnvelopesLoop ser state sendErr (rds.map Msg.deliver ++ rest) st =
          logs ++ sendEnvelopesLoop ser state sendErr rest (encodeAll ser st rds) := by
  induction rds with
  | nil => intro st; exact ⟨[], by simp, fun _ _ => rfl⟩
  | cons rd more ih =>
    intro st
    obtain ⟨logs, hlogs, hloop⟩ := ih (encodeDeliver ser st rd).1
    refine ⟨(encodeDeliver ser st rd).2 ++ logs, ?_, ?_⟩
    · intro e he
      rcases List.mem_append.mp he with he | he
      · exact encodeDeliver_logs ser st rd e he
      · exact hlogs e he
    · intro sendErr rest
      simp only [List.map_cons, List.cons_append, sendEnvelopesLoop, hs]
      rw [List.append_assoc]
      exact congrArg (fun x => (encodeDeliver ser st rd).2 ++ x) (hloop sendErr rest)

/-- Whatever the stream, the loop over a list of requests neither stops, stashes nor writes
on the stream before it reaches the rest of the list. -/
theorem sendEnvelopesLoop_requests (ser : Serialization) (state : endpointWriter)
    (rds : List remoteDeliver) (st : EncState) :
    ∃ pre st2, Effect.stop ∉ pre ∧ Effect.stash ∉ pre ∧ (∀ b, Effect.streamSend b ∉ pre) ∧
      ∀ (sendErr : Option String) (rest : List Msg),
        sendEnvelopesLoop ser state sendErr (rds.map Msg.deliver ++ rest) st =
          pre ++ sendEnvelopesLoop ser state sendErr rest st2 := by
  cases hs : state.stream with
  | none =>
    refine ⟨rds.map deadLetter, st, ?_, ?_, ?_, ?_⟩
    · intro h
      obtain ⟨rd, _, hrd⟩ := List.mem_map.mp h
      rcases deadLetter_kind rd with ⟨p, q, hk⟩ | ⟨m, p, q, hk⟩ <;> rw [hk] at hrd <;> simp at hrd
    · intro h
      obtain ⟨rd, _, hrd⟩ := List.mem_map.mp h
      rcases deadLetter_kind rd with ⟨p, q, hk⟩ | ⟨m, p, q, hk⟩ <;> rw [hk] at hrd <;> simp at hrd
    · intro b h
      obtain ⟨rd, _, hrd⟩ := List.mem_map.mp h
      rcases deadLetter_kind rd with ⟨p, q, hk⟩ | ⟨m, p, q, hk⟩ <;> rw [hk] at hrd <;> simp at hrd
    · intro sendErr rest
      exact sendEnvelopesLoop_absent ser state sendErr hs rest st rds
  | some s =>
    obtain ⟨logs, hlogs, hloop⟩ := sendEnvelopesLoop_present ser state s hs rds st
    refine ⟨logs, encodeAll ser st rds, ?_, ?_, ?_, hloop⟩
    · intro h
      obtain ⟨t, ht⟩ := hlogs _ h
      simp at ht
    · intro h
      obtain ⟨t, ht⟩ := hlogs _ h
      simp at ht
    · intro b h
      obtain ⟨t, ht⟩ := hlogs _ h
      simp at ht

theorem int32_of_lt (n : Nat) (h : n < 2147483648) : int32 (n : Int) = (n : Int) := by
  unfold int32
  omega

theorem internNew_foldl_extends (l : List String) :
    ∀ acc : List String, ∃ t, l.foldl internNew acc = acc ++ t := by
  induction l with
  | nil => intro acc; exact ⟨[], by simp⟩
  | cons x xs ih =>
    intro acc
    obtain ⟨t, ht⟩ := ih (internNew acc x)
    rw [List.foldl_cons, ht]
    unfold internNew
    split
    · exact ⟨t, rfl⟩
    · exact ⟨x :: t, by simp⟩

theorem eraseDups_loop_eq_foldl (l : List String) :
    ∀ acc : List String, List.eraseDups.loop l acc.reverse = l.foldl internNew acc := by
  induction l with
  | nil => intro acc; simp [List.eraseDups.loop]
  | cons x xs ih =>
    intro acc
    rw [List.foldl_cons, ← ih]
    by_cases hx : x ∈ acc
    · simp [List.eraseDups.loop, internNew, hx]
    · simp [List.eraseDups.loop, internNew, hx]

theorem eraseDups_eq_foldl (l : List String) : l.eraseDups = l.foldl internNew [] := by
  have := eraseDups_loop_eq_foldl l []
  simpa [List.eraseDups] using this

theorem tableInv_empty : TableInv GoMap.empty [] := by
  refine ⟨rfl, List.nodup_nil, ?_⟩
  intro k
  simp [GoMap.empty]

theorem addToLookup_spec (m : GoMap) (name : String) (a : List String) (h : TableInv m a) :
    TableInv (addToLookup m name a).2.2 (addToLookup m name a).2.1 ∧
      (addToLookup m name a).2.1 = internNew a name ∧
      name ∈ (addToLookup m name a).2.1 ∧
      (addToLookup m name a).1 = int32 ((addToLookup m name a).2.1.indexOf name : Nat) := by
  obtain ⟨hlen, hnd, hget⟩ := h
  by_cases hin : name ∈ a
  · have hg : m.get name = some (int32 (a.indexOf name : Nat)) := by rw [hget]; simp [hin]
    have hres : addToLookup m name a = (int32 (a.indexOf name : Nat), a, m) := by
      simp [addToLookup, hg]
    have hnew : internNew a name = a := by simp [internNew, hin]
    rw [hres, hnew]
    exact ⟨⟨hlen, hnd, hget⟩, rfl, hin, rfl⟩
  · have hg : m.get name = none := by rw [hget]; simp [hin]
    have hres : addToLookup m name a =
        (int32 (m.len : Nat), a ++ [name], m.set name (int32 (m.len : Nat))) := by
      simp [addToLookup, hg]
    have hnew : internNew a name = a ++ [name] := by simp [internNew, hin]
    rw [hres, hnew]
    show TableInv (m.set name (int32 (m.len : Nat))) (a ++ [name]) ∧ a ++ [name] = a ++ [name] ∧
      name ∈ a ++ [name] ∧ int32 (m.len : Nat) = int32 ((a ++ [name]).indexOf name : Nat)
    have hidx : (a ++ [name]).indexOf name = a.length := by
      rw [List.indexOf_append_of_not_mem hin]
      simp
    refine ⟨⟨?_, ?_, ?_⟩, rfl, by simp, ?_⟩
    · simp [GoMap.set, hg, hlen]
    · rw [List.nodup_append]
      refine ⟨hnd, List.nodup_singleton _, ?_⟩
      intro x hx hx2
      rw [List.mem_singleton] at hx2
      exact hin (hx2 ▸ hx)
    · intro k
      by_cases hk : k = name
      · subst hk
        simp [GoMap.set, hidx, hlen]
      · have hmem : k ∈ a ++ [name] ↔ k ∈ a := by simp [hk]
        simp only [GoMap.set, hk, if_false, hget, hmem]
        by_cases hka : k ∈ a
        · simp [hka, List.indexOf_append_of_mem hka]
        · simp [hka]
    · rw [hidx, hlen]

theorem encodeAll_types (ser : Serialization) (sid : Int) (rds : List remoteDeliver) :
    ∀ st : EncState, st.serializerID = sid → TableInv st.typeNames st.typeNamesArr →
      TableInv (encodeAll ser st rds).typeNames (encodeAll ser st rds).typeNamesArr ∧
      (encodeAll ser st rds).typeNamesArr =
        (serializedTypeNames ser sid rds).foldl internNew st.typeNamesArr ∧
      ∃ es, (encodeAll ser st rds).envelopes = st.envelopes ++ es ∧
        List.Forall₂
          (fun e rd => ∃ r, serialized ser sid rd = some r ∧
            r.2 ∈ (encodeAll ser st rds).typeNamesArr ∧
            e.TypeId = int32 ((encodeAll ser st rds).typeNamesArr.indexOf r.2 : Nat))
          es (rds.filter (fun rd => (serialized ser sid rd).isSome)) := by
  induction rds with
  | nil =>
    intro st _ hinv
    exact ⟨hinv, rfl, [], by simp [encodeAll], List.Forall₂.nil⟩
  | cons rd rest ih =>
    intro st hst hinv
    rw [encodeAll_cons]
    cases h : serialized ser sid rd with
    | none =>
      have h2 : serialized ser st.serializerID rd = none := by rw [hst]; exact h
      have h3 : (encodeDeliver ser st rd).1 = st := by rw [encodeDeliver_failed ser st rd h2]
      rw [h3]
      obtain ⟨i1, i2, es, hes, hall⟩ := ih st hst hinv
      refine ⟨i1, ?_, es, hes, ?_⟩
      · rw [i2]; simp [serializedTypeNames, List.filterMap_cons, h]
      · simpa [List.filter_cons, h] using hall
    | some r =>
      have h2 : serialized ser st.serializerID rd = some (r.1, r.2) := by rw [hst]; exact h
      have hok := encodeDeliver_ok ser st rd r.1 r.2 h2
      obtain ⟨a1, a2, a3, a4⟩ := addToLookup_spec st.typeNames r.2 st.typeNamesArr hinv
      have hsid : (encodeDeliver ser st rd).1.serializerID = sid := by
        rw [encodeDeliver_serializerID]; exact hst
      have harr : (encodeDeliver ser st rd).1.typeNamesArr =
          (addToLookup st.typeNames r.2 st.typeNamesArr).2.1 := by rw [hok]
      have hmap : (encodeDeliver ser st rd).1.typeNames =
          (addToLookup st.typeNames r.2 st.typeNamesArr).2.2 := by rw [hok]
      have hinv1 : TableInv (encodeDeliver ser st rd).1.typeNames
          (encodeDeliver ser st rd).1.typeNamesArr := by rw [harr, hmap]; exact a1
      obtain ⟨i1, i2, es, hes, hall⟩ := ih (encodeDeliver ser st rd).1 hsid hinv1
      obtain ⟨t, ht⟩ := internNew_foldl_extends (serializedTypeNames ser sid rest)
        (encodeDeliver ser st rd).1.typeNamesArr
      have hmem1 : r.2 ∈ (encodeDeliver ser st rd).1.typeNamesArr := by rw [harr]; exact a3
      refine ⟨i1, ?_, ?_⟩
      · rw [i2, harr, a2]
        simp [serializedTypeNames, List.filterMap_cons, h]
      · obtain ⟨e, he, hte⟩ : ∃ e, (encodeDeliver ser st rd).1.envelopes = st.envelopes ++ [e] ∧
            e.TypeId = (addToLookup st.typeNames r.2 st.typeNamesArr).1 := by
          rw [hok]; exact ⟨_, rfl, rfl⟩
        refine ⟨e :: es, ?_, ?_⟩
        · rw [hes, he]; simp
        · simp only [List.filter_cons, h, Option.isSome_some, if_true]
          refine List.Forall₂.cons ⟨r, h, ?_, ?_⟩ hall
          · rw [i2, ht]; exact List.mem_append_left _ hmem1
          · rw [hte, a4, i2, ht, List.indexOf_append_of_mem hmem1, harr]

/-- On a present stream, when no request of the list serializes, the effects of
`sendEnvelopes` are log lines only. -/
theorem sendEnvelopes_nothing_serialized (ser : Serialization) (state : endpointWriter)
    (sendErr : Option String) (s : String) (hs : state.stream = some s)
    (rds : List remoteDeliver)
    (h0 : rds.filter (fun rd => (serialized ser 0 rd).isSome) = []) :
    ∀ e ∈ sendEnvelopes ser state sendErr (rds.map Msg.deliver), ∃ t, e = Effect.log t := by
  obtain ⟨logs, hlogs, hloop⟩ := sendEnvelopesLoop_present ser state s hs rds EncState.init
  obtain ⟨es, hes, hall⟩ := encodeAll_envelopes ser 0 rds EncState.init rfl
  have hlen : (encodeAll ser EncState.init rds).envelopes.length = 0 := by
    rw [hes]
    show ([] ++ es).length = 0
    rw [List.nil_append, hall.length_eq, h0]
    rfl
  have := hloop sendErr []
  rw [List.append_nil] at this
  unfold sendEnvelopes
  rw [this]
  simpa [sendEnvelopesLoop, flushBatch, hlen] using hlogs

theorem string_append_left_cancel (s t u : String) (h : s ++ t = s ++ u) : t = u := by
  have hd := congrArg String.data h
  simp only [String.data_append] at hd
  exact String.ext (List.append_cancel_left hd)

theorem pidKey_eq_iff (a : String) (p q : PID) (hp : p.Address = a) (hq : q.Address = a) :
    pidKey q = pidKey p ↔ normalized q = normalized p := by
  constructor
  · intro h
    unfold pidKey at h
    rw [hp, hq] at h
    have hid : q.Id = p.Id := string_append_left_cancel _ _ _ h
    unfold normalized
    cases p
    cases q
    simp only at hp hq hid
    simp [hp, hq, hid]
  · intro h
    unfold normalized at h
    unfold pidKey
    cases p
    cases q
    simp only [PID.mk.injEq] at h
    simp [h.1, h.2.1]

theorem pidTableInv_empty (a : String) : PidTableInv a GoMap.empty [] := by
  refine ⟨rfl, List.nodup_nil, by simp, ?_⟩
  intro q _
  simp [GoMap.empty]

theorem addToTargetLookup_spec (a : String) (m : GoMap) (pid : PID) (arr : List PID)
    (h : PidTableInv a m arr) (hpid : pid.Address = a) :
    PidTableInv a (addToTargetLookup m pid arr).2.2 (addToTargetLookup m pid arr).2.1 ∧
      (∃ t, (addToTargetLookup m pid arr).2.1 = arr ++ t) ∧
      normalized pid ∈ (addToTargetLookup m pid arr).2.1 ∧
      (addToTargetLookup m pid arr).1 =
        int32 (((addToTargetLookup m pid arr).2.1.indexOf (normalized pid) : Nat) : Int) := by
  obtain ⟨hlen, hnd, haddr, hget⟩ := h
  have hkey : pid.Address ++ "/" ++ pid.Id = pidKey pid := rfl
  by_cases hin : normalized pid ∈ arr
  · have hg : m.get (pidKey pid) =
        some (int32 ((arr.indexOf (normalized pid) : Nat) : Int)) := by
      rw [hget pid hpid]; simp [hin]
    have hres : addToTargetLookup m pid arr =
        (int32 ((arr.indexOf (normalized pid) : Nat) : Int), arr, m) := by
      simp [addToTargetLookup, hkey, hg]
    rw [hres]
    exact ⟨⟨hlen, hnd, haddr, hget⟩, ⟨[], by simp⟩, hin, rfl⟩
  · have hg : m.get (pidKey pid) = none := by
      rw [hget pid hpid]; simp [hin]
    have hres : addToTargetLookup m pid arr =
        (int32 (m.len : Nat), arr ++ [normalized pid],
          m.set (pidKey pid) (int32 (m.len : Nat))) := by
      simp [addToTargetLookup, hkey, hg, normalized]
    rw [hres]
    show PidTableInv a (m.set (pidKey pid) (int32 (m.len : Nat))) (arr ++ [normalized pid]) ∧
      (∃ t, arr ++ [normalized pid] = arr ++ t) ∧
      normalized pid ∈ arr ++ [normalized pid] ∧
      int32 (m.len : Nat) =
        int32 (((arr ++ [normalized pid]).indexOf (normalized pid) : Nat) : Int)
    have hidx : (arr ++ [normalized pid]).indexOf (normalized pid) = arr.length := by
      rw [List.indexOf_append_of_not_mem hin]
      simp
    refine ⟨⟨?_, ?_, ?_, ?_⟩, ⟨_, rfl⟩, by simp, ?_⟩
    · simp [GoMap.set, hg, hlen]
    · rw [List.nodup_append]
      refine ⟨hnd, List.nodup_singleton _, ?_⟩
      intro x hx hx2
      rw [List.mem_singleton] at hx2
      exact hin (hx2 ▸ hx)
    · intro p hp
      rcases List.mem_append.mp hp with hp | hp
      · exact haddr p hp
      · rw [List.mem_singleton] at hp
        rw [hp]
        exact hpid
    · intro q hq
      by_cases hk : pidKey q = pidKey pid
      · have hn : normalized q = normalized pid := (pidKey_eq_iff a pid q hpid hq).mp hk
        simp [GoMap.set, hk, hn, hidx, hlen]
      · have hn : normalized q ≠ normalized pid :=
          fun hn => hk ((pidKey_eq_iff a pid q hpid hq).mpr hn)
        have hmem : normalized q ∈ arr ++ [normalized pid] ↔ normalized q ∈ arr := by
          simp [hn]
        simp only [GoMap.set, hk, if_false, hget q hq, hmem]
        by_cases hka : normalized q ∈ arr
        · simp [hka, List.indexOf_append_of_mem hka]
        · simp [hka]
    · rw [hidx, hlen]

theorem encodeAll_targets (ser : Serialization) (sid : Int) (a : String)
    (rds : List remoteDeliver) :
    ∀ st : EncState, st.serializerID = sid → PidTableInv a st.targetNames st.targetNamesArr →
      (∀ rd ∈ rds, rd.target.Address = a) →
      PidTableInv a (encodeAll ser st rds).targetNames (encodeAll ser st rds).targetNamesArr ∧
      (∃ t, (encodeAll ser st rds).targetNamesArr = st.targetNamesArr ++ t) ∧
      ∃ es, (encodeAll ser st rds).envelopes = st.envelopes ++ es ∧
        List.Forall₂
          (fun e rd => normalized rd.target ∈ (encodeAll ser st rds).targetNamesArr ∧
            e.Target = int32 (((encodeAll ser st rds).targetNamesArr.indexOf
              (normalized rd.target) : Nat) : Int))
          es (rds.filter (fun rd => (serialized ser sid rd).isSome)) := by
  induction rds with
  | nil =>
    intro st _ hinv _
    exact ⟨hinv, ⟨[], by simp [encodeAll]⟩, [], by simp [encodeAll], List.Forall₂.nil⟩
  | cons rd rest ih =>
    intro st hst hinv hroute
    have hrest : ∀ x ∈ rest, x.target.Address = a :=
      fun x hx => hroute x (List.mem_cons_of_mem _ hx)
    rw [encodeAll_cons]
    cases h : serialized ser sid rd with
    | none =>
      have h2 : serialized ser st.serializerID rd = none := by rw [hst]; exact h
      have h3 : (encodeDeliver ser st rd).1 = st := by rw [encodeDeliver_failed ser st rd h2]
      rw [h3]
      obtain ⟨i1, i2, es, hes, hall⟩ := ih st hst hinv hrest
      refine ⟨i1, i2, es, hes, ?_⟩
      simpa [List.filter_cons, h] using hall
    | some r =>
      have h2 : serialized ser st.serializerID rd = some (r.1, r.2) := by rw [hst]; exact h
      have hok := encodeDeliver_ok ser st rd r.1 r.2 h2
      obtain ⟨a1, ⟨t1, a2⟩, a3, a4⟩ :=
        addToTargetLookup_spec a st.targetNames rd.target st.targetNamesArr hinv
          (hroute rd (List.mem_cons_self _ _))
      have hsid : (encodeDeliver ser st rd).1.serializerID = sid := by
        rw [encodeDeliver_serializerID]; exact hst
      have harr : (encodeDeliver ser st rd).1.targetNamesArr =
          (addToTargetLookup st.targetNames rd.target st.targetNamesArr).2.1 := by rw [hok]
      have hmap : (encodeDeliver ser st rd).1.targetNames =
          (addToTargetLookup st.targetNames rd.target st.targetNamesArr).2.2 := by rw [hok]
      have hinv1 : PidTableInv a (encodeDeliver ser st rd).1.targetNames
          (encodeDeliver ser st rd).1.targetNamesArr := by rw [harr, hmap]; exact a1
      obtain ⟨i1, ⟨t2, i2⟩, es, hes, hall⟩ := ih (encodeDeliver ser st rd).1 hsid hinv1 hrest
      have hmem1 : normalized rd.target ∈ (encodeDeliver ser st rd).1.targetNamesArr := by
        rw [harr]; exact a3
      refine ⟨i1, ⟨t1 ++ t2, ?_⟩, ?_⟩
      · rw [i2, harr, a2, List.append_assoc]
      · obtain ⟨e, he, hte⟩ : ∃ e, (encodeDeliver ser st rd).1.envelopes = st.envelopes ++ [e] ∧
            e.Target = (addToTargetLookup st.targetNames rd.target st.targetNamesArr).1 := by
          rw [hok]; exact ⟨_, rfl, rfl⟩
        refine ⟨e :: es, ?_, ?_⟩
        · rw [hes, he]; simp
        · simp only [List.filter_cons, h, Option.isSome_some, if_true]
          refine List.Forall₂.cons ⟨?_, ?_⟩ hall
          · rw [i2]; exact List.mem_append_left _ hmem1
          · rw [hte, a4, i2, List.indexOf_append_of_mem hmem1, harr]

/-! ## The claims -/

/-- C1: on a present stream, for every list of requests whose targets are at the address of
the writer (requests reach a writer through the address of their target): when some request
serializes one batch is written (none otherwise), its envelopes pair off in order with the
requests that serialize, and for every such pair the target of the request with requestId set
to 0 occurs exactly once in the targets table and the targetIndex of the envelope is the
position of that occurrence, converted to int32; so two envelopes whose requests have the same
target after zeroing requestId carry the same targetIndex. -/
theorem C1_target_interned_once (ser : Serialization) (state : endpointWriter)
    (sendErr : Option String) (s : String) (hs : state.stream = some s)
    (rds : List remoteDeliver) (hroute : ∀ rd ∈ rds, rd.target.Address = state.address) :
    (rds.filter (fun rd => (serialized ser 0 rd).isSome) = [] →
      sentBatches (sendEnvelopes ser state sendErr (rds.map Msg.deliver)) = []) ∧
    (rds.filter (fun rd => (serialized ser 0 rd).isSome) ≠ [] →
      ∃ b, sentBatches (sendEnvelopes ser state sendErr (rds.map Msg.deliver)) = [b] ∧
        b.Envelopes.length = (rds.filter (fun rd => (serialized ser 0 rd).isSome)).length ∧
        (∀ e rd, (e, rd) ∈ b.Envelopes.zip
            (rds.filter (fun rd => (serialized ser 0 rd).isSome)) →
          b.Targets.count (normalized rd.target) = 1 ∧
          e.Target = int32 ((b.Targets.indexOf (normalized rd.target) : Nat) : Int)) ∧
        (∀ e1 rd1 e2 rd2,
          (e1, rd1) ∈ b.Envelopes.zip
            (rds.filter (fun rd => (serialized ser 0 rd).isSome)) →
          (e2, rd2) ∈ b.Envelopes.zip
            (rds.filter (fun rd => (serialized ser 0 rd).isSome)) →
          normalized rd1.target = normalized rd2.target → e1.Target = e2.Target)) := by
  obtain ⟨h0, h1, _⟩ := sentBatches_deliver ser state sendErr s hs rds
  refine ⟨h0, ?_⟩
  intro hne
  obtain ⟨hinv, _, es, hes, hall⟩ :=
    encodeAll_targets ser 0 state.address rds EncState.init rfl
      (pidTableInv_empty state.address) hroute
  have henv : (encodeAll ser EncState.init rds).batch.Envelopes = es := by
    show (encodeAll ser EncState.init rds).envelopes = es
    rw [hes]; rfl
  obtain ⟨hlen, hzip⟩ := List.forall₂_iff_zip.mp hall
  have hpair : ∀ e rd, (e, rd) ∈ (encodeAll ser EncState.init rds).batch.Envelopes.zip
      (rds.filter (fun rd => (serialized ser 0 rd).isSome)) →
      (encodeAll ser EncState.init rds).batch.Targets.count (normalized rd.target) = 1 ∧
      e.Target = int32 (((encodeAll ser EncState.init rds).batch.Targets.indexOf
        (normalized rd.target) : Nat) : Int) := by
    intro e rd hmem
    rw [henv] at hmem
    obtain ⟨hm, hidx⟩ := hzip hmem
    exact ⟨List.count_eq_one_of_mem hinv.2.1 hm, hidx⟩
  refine ⟨_, h1 hne, by rw [henv]; exact hlen, hpair, ?_⟩
  intro e1 rd1 e2 rd2 hm1 hm2 heq
  rw [(hpair e1 rd1 hm1).2, (hpair e2 rd2 hm2).2, heq]

/-- C1 (witness): three requests to the writer at "host:1", for the ids "a/b", "a" and "a/b"
again with another request id: the targets table holds ("host:1", "a/b") and ("host:1", "a")
once each and the envelopes carry the indices 0, 1, 0. -/
theorem C1_target_interned_once_witness :
    connectedWriter.stream = some "http://host:1" ∧
    (∀ rd ∈ [reqToSlashId, reqToPlainId, reqToSlashIdAgain],
      rd.target.Address = connectedWriter.address) ∧
    ∃ b, sentBatches (sendEnvelopes sampleSer connectedWriter none
        ([reqToSlashId, reqToPlainId, reqToSlashIdAgain].map Msg.deliver)) = [b] ∧
      b.Targets = [⟨"host:1", "a/b", 0⟩, ⟨"host:1", "a", 0⟩] ∧
      b.Envelopes.map (fun e => e.Target) = [0, 1, 0] ∧
      (∀ e rd, (e, rd) ∈ b.Envelopes.zip [reqToSlashId, reqToPlainId, reqToSlashIdAgain] →
        b.Targets.count (normalized rd.target) = 1) := by
  have hroute : ∀ rd ∈ [reqToSlashId, reqToPlainId, reqToSlashIdAgain],
      rd.target.Address = connectedWriter.address := by decide
  obtain ⟨b, hb, _, hpair, _⟩ :=
    (C1_target_interned_once sampleSer connectedWriter none "http://host:1" rfl
      [reqToSlashId, reqToPlainId, reqToSlashIdAgain] hroute).2 (by decide)
  have hf : [reqToSlashId, reqToPlainId, reqToSlashIdAgain].filter
      (fun rd => (serialized sampleSer 0 rd).isSome) =
      [reqToSlashId, reqToPlainId, reqToSlashIdAgain] := by decide
  rw [hf] at hpair
  have hsent : sentBatches (sendEnvelopes sampleSer connectedWriter none
      ([reqToSlashId, reqToPlainId, reqToSlashIdAgain].map Msg.deliver)) =
      [{ TypeNames := ["odd", "even"]
         Targets := [⟨"host:1", "a/b", 0⟩, ⟨"host:1", "a", 0⟩]
         Senders := []
         Envelopes := [⟨none, [1, 0], 0, 0, 0, 0, 7, 0⟩, ⟨none, [2, 0], 0, 1, 1, 0, 9, 0⟩,
           ⟨none, [3, 0], 0, 0, 0, 0, 11, 0⟩] }] := by decide
  have hbeq : _ = b := (List.cons.inj (hsent.symm.trans hb)).1
  refine ⟨rfl, hroute, b, hb, ?_, ?_, fun e rd h => (hpair e rd h).1⟩
  · rw [← hbeq]
  · rw [← hbeq]; decide

/-- C2, evaluated at a failing input: both requests go to the writer at "host:1". The second
has sender ("s", "t/u"), whose key "s/t/u" was taken by the sender ("s/t", "u") of the first.
Its envelope has targetIndex 1, where the targets table holds its own target, and senderIndex
1; the entry of the senders table at senderIndex - 1 is ("s/t", "u"), not the sender of the
request with requestId 0. -/
theorem C2_sender_index_points_at_other_pid :
    ∃ b e, sentBatches (sendEnvelopes sampleSer connectedWriter none
        [Msg.deliver reqKeyHolder, Msg.deliver reqKeyTaker]) = [b] ∧
      b.Envelopes[1]? = some e ∧
      b.Targets[e.Target.toNat]? = some (normalized reqKeyTaker.target) ∧
      reqKeyTaker.sender = some ⟨"s", "t/u", 6⟩ ∧
      b.Senders[(e.Sender - 1).toNat]? = some ⟨"s/t", "u", 0⟩ ∧
      b.Senders[(e.Sender - 1).toNat]? ≠ some ⟨"s", "t/u", 0⟩ ∧
      (⟨"s", "t/u", 0⟩ : PID) ∉ b.Senders :=
  ⟨{ TypeNames := ["odd"]
     Targets := [⟨"host:1", "x/y", 0⟩, ⟨"host:1", "x", 0⟩]
     Senders := [⟨"s/t", "u", 0⟩]
     Envelopes := [⟨none, [1, 0], 1, 0, 0, 0, 0, 5⟩, ⟨none, [3, 0], 1, 1, 0, 0, 0, 6⟩] },
   ⟨none, [3, 0], 1, 1, 0, 0, 0, 6⟩, by decide, by decide, by decide, by decide, by decide,
   by decide, by decide⟩

/-- C3, evaluated at a failing input: the sender ("node", "1/client") of the second request
has the key "node/1/client" of the first request's sender ("node/1", "client"). Its envelope
gets senderIndex 1, but the senders table holds only ("node/1", "client"): the normalized PID
of the second sender has no position in the table. -/
theorem C3_sender_without_position :
    ∃ b e, sentBatches (sendEnvelopes sampleSer connectedWriter none
        [Msg.deliver reqFromNodeSlash, Msg.deliver reqFromIdSlash]) = [b] ∧
      b.Envelopes[1]? = some e ∧ e.Sender = 1 ∧
      b.Senders = [⟨"node/1", "client", 0⟩] ∧
      (⟨"node", "1/client", 0⟩ : PID) ∉ b.Senders :=
  ⟨{ TypeNames := ["even"]
     Targets := [⟨"host:1", "worker", 0⟩]
     Senders := [⟨"node/1", "client", 0⟩]
     Envelopes := [⟨none, [4, 0], 1, 0, 0, 0, 0, 1⟩, ⟨none, [6, 0], 1, 0, 0, 0, 0, 2⟩] },
   ⟨none, [6, 0], 1, 0, 0, 0, 0, 2⟩, by decide, by decide, by decide, by decide, by decide⟩

/-- C4 (counterexample): with the stream absent, a list made of an EndpointTerminatedEvent
followed by a request produces the stop only; the request gets neither a DeadLetterResponse
nor a DeadLetterEvent. -/
theorem C4_request_after_terminate_dropped :
    sendEnvelopes sampleSer idleWriter none
        [Msg.terminatedPtr "host:1", Msg.deliver reqFromNodeSlash] =
      [Effect.log "Handling array wrapped terminate event", Effect.stop] := by
  decide

/-- C4 (amended): while the stream is absent, for a list that consists of requests, or of
requests followed by an EndpointTerminatedEvent (by pointer or by value) and anything after
it, each of the leading requests produces exactly one dead-letter outcome, in order: a
DeadLetterResponse naming the target, sent to the sender, when there is a sender, else a
DeadLetterEvent with the message, the nil sender and the target. No batch is sent. At the
EndpointTerminatedEvent the method requests a stop and returns, so what comes after it
produces nothing. -/
theorem C4_dead_letters_while_stream_absent (ser : Serialization) (state : endpointWriter)
    (sendErr : Option String) (h : state.stream = none) (rds : List remoteDeliver)
    (address : String) (rest : List Msg) :
    sendEnvelopes ser state sendErr (rds.map Msg.deliver) =
      rds.map (fun rd =>
        match rd.sender with
        | some s => Effect.sendDeadLetterResponse s rd.target
        | none => Effect.publishDeadLetterEvent rd.message none rd.target) ∧
    sentBatches (sendEnvelopes ser state sendErr (rds.map Msg.deliver)) = [] ∧
    sendEnvelopes ser state sendErr (rds.map Msg.deliver ++ Msg.terminatedPtr address :: rest) =
      rds.map (fun rd =>
        match rd.sender with
        | some s => Effect.sendDeadLetterResponse s rd.target
        | none => Effect.publishDeadLetterEvent rd.message none rd.target) ++
      [Effect.log "Handling array wrapped terminate event", Effect.stop] ∧
    sendEnvelopes ser state sendErr (rds.map Msg.deliver ++ Msg.terminatedVal address :: rest) =
      rds.map (fun rd =>
        match rd.sender with
        | some s => Effect.sendDeadLetterResponse s rd.target
        | none => Effect.publishDeadLetterEvent rd.message none rd.target) ++
      [Effect.log "Handling array wrapped terminate event", Effect.stop] := by
  have hfun : (fun rd : remoteDeliver =>
        match rd.sender with
        | some s => Effect.sendDeadLetterResponse s rd.target
        | none => Effect.publishDeadLetterEvent rd.message none rd.target) = deadLetter := by
    funext rd
    exact (deadLetter_eq rd).symm
  have hnil : sendEnvelopes ser state sendErr (rds.map Msg.deliver) = rds.map deadLetter := by
    have := sendEnvelopesLoop_absent ser state sendErr h [] EncState.init rds
    rw [List.append_nil] at this
    unfold sendEnvelopes
    rw [this]
    simp [sendEnvelopesLoop, flushBatch, EncState.init]
  rw [hfun]
  refine ⟨hnil, ?_, ?_, ?_⟩
  · rw [hnil]
    have := sentBatches_deadLetters rds []
    rw [List.append_nil] at this
    rw [this]; rfl
  · unfold sendEnvelopes
    rw [sendEnvelopesLoop_absent ser state sendErr h]
    rfl
  · unfold sendEnvelopes
    rw [sendEnvelopesLoop_absent ser state sendErr h]
    rfl

/-- C4 (witness): the amended statement at a writer without stream and two requests, the
first with a sender and the second without. -/
theorem C4_dead_letters_witness :
    idleWriter.stream = none ∧
    sendEnvelopes sampleSer idleWriter none
        ([reqFromNodeSlash, reqUnserializable].map Msg.deliver) =
      [Effect.sendDeadLetterResponse ⟨"node/1", "client", 1⟩ ⟨"host:1", "worker", 0⟩,
       Effect.publishDeadLetterEvent 99 none ⟨"host:1", "broken", 3⟩] :=
  ⟨rfl, (C4_dead_letters_while_stream_absent sampleSer idleWriter none rfl
    [reqFromNodeSlash, reqUnserializable] "host:1" []).1⟩

/-- C5: on a present stream, for every list of requests, (1) what is written on the stream is
what would be written for the sub-list of the requests that serialize, so a failing request
adds no envelope and no table entry and leaves the later requests encoded; (2) when no
request serializes nothing is written; (3) otherwise one batch is written, and its envelopes
pair off, one to one and in order, with the requests that serialize, each envelope carrying
the serialized bytes and the header of its request. -/
theorem C5_failed_serializations_are_skipped (ser : Serialization) (state : endpointWriter)
    (sendErr : Option String) (s : String) (hs : state.stream = some s)
    (rds : List remoteDeliver) :
    sentBatches (sendEnvelopes ser state sendErr (rds.map Msg.deliver)) =
      sentBatches (sendEnvelopes ser state sendErr
        ((rds.filter (fun rd => (serialized ser 0 rd).isSome)).map Msg.deliver)) ∧
    (rds.filter (fun rd => (serialized ser 0 rd).isSome) = [] →
      sentBatches (sendEnvelopes ser state sendErr (rds.map Msg.deliver)) = []) ∧
    (rds.filter (fun rd => (serialized ser 0 rd).isSome) ≠ [] →
      ∃ b, sentBatches (sendEnvelopes ser state sendErr (rds.map Msg.deliver)) = [b] ∧
        List.Forall₂
          (fun e rd => ∃ r, serialized ser 0 rd = some r ∧ e.MessageData = r.1 ∧
            e.MessageHeader = envelopeHeader rd.header)
          b.Envelopes (rds.filter (fun rd => (serialized ser 0 rd).isSome))) := by
  obtain ⟨h0, h1, h2⟩ := sentBatches_deliver ser state sendErr s hs rds
  refine ⟨?_, h0, ?_⟩
  · unfold sendEnvelopes
    rw [sentBatches_loop ser state sendErr s hs, sentBatches_loop ser state sendErr s hs,
      encodeAll_filter ser 0 rds EncState.init rfl]
  · intro hne
    refine ⟨_, h1 hne, ?_⟩
    refine h2.imp ?_
    intro e rd hc
    obtain ⟨r, hr, hd, hh, _⟩ := hc
    exact ⟨r, hr, hd, hh⟩

/-- C5 (witness): three requests of which the second fails to serialize give one batch of
exactly two envelopes, for the first and the third request in that order. -/
theorem C5_three_requests_second_failing :
    connectedWriter.stream = some "http://host:1" ∧
    (serialized sampleSer 0 reqUnserializable).isSome = false ∧
    ∃ b, sentBatches (sendEnvelopes sampleSer connectedWriter none
        ([reqFromNodeSlash, reqUnserializable, reqSerializerOne].map Msg.deliver)) = [b] ∧
      b.Envelopes.length = 2 ∧
      List.Forall₂
        (fun e rd => ∃ r, serialized sampleSer 0 rd = some r ∧ e.MessageData = r.1 ∧
          e.MessageHeader = envelopeHeader rd.header)
        b.Envelopes [reqFromNodeSlash, reqSerializerOne] := by
  obtain ⟨b, hb, hall⟩ :=
    (C5_failed_serializations_are_skipped sampleSer connectedWriter none "http://host:1" rfl
      [reqFromNodeSlash, reqUnserializable, reqSerializerOne]).2.2 (by decide)
  have hf : [reqFromNodeSlash, reqUnserializable, reqSerializerOne].filter
      (fun rd => (serialized sampleSer 0 rd).isSome) = [reqFromNodeSlash, reqSerializerOne] := by
    decide
  rw [hf] at hall
  exact ⟨rfl, by decide, b, hb, hall.length_eq, hall⟩

/-- C6, evaluated at a failing input: a request built by `SendMessage` with serializerID 1 is
serialized with serializer id 0 (the sample serializer records the id it was called with as
the second byte) and its envelope carries SerializerId 0. -/
theorem C6_request_serializer_id_ignored :
    reqSerializerOne.serializerID = 1 ∧
    sentBatches (sendEnvelopes sampleSer connectedWriter none [Msg.deliver reqSerializerOne]) =
      [{ TypeNames := ["even"]
         Targets := [⟨"host:1", "worker", 0⟩]
         Senders := []
         Envelopes := [{ MessageHeader := none, MessageData := [8, 0], Sender := 0, Target := 0,
                         TypeId := 0, SerializerId := 0, TargetRequestId := 0,
                         SenderRequestId := 0 }] }] := by
  constructor
  · decide
  · decide

/-- C7 (counterexample): with `MaxRetryCount = 0` no attempt is made, `err` stays nil and no
EndpointTerminatedEvent is published; the method ends with the "connected" log line. -/
theorem C7_no_terminated_event_for_zero_retries :
    (initializeWriter noRetryWriter (fun _ => Handshake.invalidResponse)).2 =
      [Effect.log "Started EndpointWriter. connecting", Effect.log "EndpointWriter connected"] ∧
    terminatedEvents (initializeWriter noRetryWriter (fun _ => Handshake.invalidResponse)).2 =
      [] := by
  constructor
  · decide
  · decide

/-- C7 (amended): for every configured `MaxRetryCount = N` with `N ≥ 1`, when each of the
attempts 0, ..., N-1 fails, `initialize` makes exactly N connection attempts, publishes
exactly one EndpointTerminatedEvent, the one for the writer's address, and publishes no
EndpointConnectedEvent. -/
theorem C7_retry_bound (state : endpointWriter) (attempts : Nat → Handshake)
    (hN : 1 ≤ state.MaxRetryCount)
    (hf : ∀ i : Nat, (i : Int) < state.MaxRetryCount → attempts i ≠ Handshake.connectResponse) :
    (connectionAttempts (initializeWriter state attempts).2 : Int) = state.MaxRetryCount ∧
    terminatedEvents (initializeWriter state attempts).2 = [state.address] ∧
    connectedEvents (initializeWriter state attempts).2 = [] := by
  obtain ⟨s1, eff, hinit, _, hcount, hterm, hconn, _⟩ :=
    initializeWriter_all_failed state attempts hN hf
  rw [hinit]
  refine ⟨?_, ?_, ?_⟩
  · rw [← hcount]
    simp [connectionAttempts, List.filter_cons, List.filter_append]
  · simp only [terminatedEvents, List.filterMap_cons, List.filterMap_append] at hterm ⊢
    simp [hterm]
  · simp only [connectedEvents, List.filterMap_cons, List.filterMap_append] at hconn ⊢
    simp [hconn]

/-- C7 (witness): the default `MaxRetryCount = 5` with every reply invalid. -/
theorem C7_retry_bound_witness :
    (1 : Int) ≤ idleWriter.MaxRetryCount ∧
    (∀ i : Nat, (i : Int) < idleWriter.MaxRetryCount →
      (fun _ : Nat => Handshake.invalidResponse) i ≠ Handshake.connectResponse) ∧
    (connectionAttempts (initializeWriter idleWriter (fun _ => Handshake.invalidResponse)).2 :
      Int) = 5 ∧
    terminatedEvents (initializeWriter idleWriter (fun _ => Handshake.invalidResponse)).2 =
      ["host:1"] ∧
    connectedEvents (initializeWriter idleWriter (fun _ => Handshake.invalidResponse)).2 = [] :=
  ⟨by decide, fun _ _ => by simp,
    C7_retry_bound idleWriter (fun _ => Handshake.invalidResponse) (by decide)
      (fun _ _ => by simp)⟩

/-- C8 (counterexample): with `MaxRetryCount = 1` and a failing attempt, the effects of
`initialize` are the attempt, the retry log and sleep, and the Terminated event; there is no
`ctx.Stop` among them. -/
theorem C8_no_stop_requested_by_initialize :
    (initializeWriter oneTryWriter (fun _ => Handshake.receiveError "refused")).2 =
      [Effect.log "Started EndpointWriter. connecting",
       Effect.openStream "http://host:1",
       Effect.sendConnectRequest,
       Effect.log "EndpointWriter failed to receive connect response",
       Effect.log "EndpointWriter failed to connect",
       Effect.sleep 2,
       Effect.publishTerminated "host:1"] ∧
    Effect.stop ∉ (initializeWriter oneTryWriter (fun _ => Handshake.receiveError "refused")).2 := by
  constructor
  · decide
  · decide

/-- C8 (amended): after `MaxRetryCount ≥ 1` connection attempts have all failed, the last
action of `initialize` is the publication of the Terminated event for the writer's address,
after exactly `MaxRetryCount` attempts; `initialize` itself requests no stop. The stop is
requested by `Receive` when an EndpointTerminatedEvent is delivered to the writer. -/
theorem C8_terminated_published_stop_left_to_receive (ser : Serialization)
    (sendErr : Option String) (state : endpointWriter) (attempts : Nat → Handshake)
    (hN : 1 ≤ state.MaxRetryCount)
    (hf : ∀ i : Nat, (i : Int) < state.MaxRetryCount → attempts i ≠ Handshake.connectResponse) :
    (initializeWriter state attempts).2.getLast? =
      some (Effect.publishTerminated state.address) ∧
    (connectionAttempts (initializeWriter state attempts).2 : Int) = state.MaxRetryCount ∧
    Effect.stop ∉ (initializeWriter state attempts).2 ∧
    (Receive ser attempts sendErr (initializeWriter state attempts).1
        (ActorMessage.endpointTerminated state.address)).2 =
      [Effect.log "EndpointWriter received EndpointTerminatedEvent, stopping", Effect.stop] := by
  obtain ⟨s1, eff, hinit, _, hcount, _, _, hstop⟩ :=
    initializeWriter_all_failed state attempts hN hf
  rw [hinit]
  refine ⟨?_, ?_, ?_, rfl⟩
  · show (Effect.log "Started EndpointWriter. connecting" :: eff ++
      [Effect.publishTerminated state.address]).getLast? = _
    rw [List.getLast?_append]
    rfl
  · rw [← hcount]
    simp [connectionAttempts, List.filter_cons, List.filter_append]
  · simp [hstop]

/-- C8 (witness): `MaxRetryCount = 1` with a failing read of the reply. -/
theorem C8_terminated_published_witness :
    (1 : Int) ≤ oneTryWriter.MaxRetryCount ∧
    (initializeWriter oneTryWriter (fun _ => Handshake.receiveError "refused")).2.getLast? =
      some (Effect.publishTerminated "host:1") ∧
    Effect.stop ∉ (initializeWriter oneTryWriter (fun _ => Handshake.receiveError "refused")).2 :=
  have h := C8_terminated_published_stop_left_to_receive sampleSer none oneTryWriter
    (fun _ => Handshake.receiveError "refused") (by decide) (fun _ _ => by simp)
  ⟨by decide, h.1, h.2.2.1⟩

/-- C9 (counterexample): on a clean end-of-stream the listener logs and returns; it publishes
no EndpointTerminatedEvent. -/
theorem C9_no_event_on_clean_end_of_stream :
    listener "host:1" [RecvResult.eof] =
      ([Effect.log "EndpointWriter stream completed"], false) ∧
    terminatedEvents (listener "host:1" [RecvResult.eof]).1 = [] := by
  constructor
  · decide
  · decide

/-- C9 (amended): the background listener stops listening on stream termination of either
kind. On a read error other than end-of-stream it first publishes an EndpointTerminatedEvent
for the writer's address; on a clean end-of-stream it publishes nothing and only logs. This
holds after any number `n` of received messages, each of which made it publish one
EndpointTerminatedEvent and go on listening. -/
theorem C9_listener_on_stream_termination (address : String) (n : Nat) (err : String)
    (rest : List RecvResult) :
    listener address (RecvResult.error err :: rest) =
      ([Effect.log "EndpointWriter lost connection", Effect.publishTerminated address], false) ∧
    listener address (RecvResult.eof :: rest) =
      ([Effect.log "EndpointWriter stream completed"], false) ∧
    terminatedEvents
        (listener address (List.replicate n RecvResult.message ++ RecvResult.error err :: rest)).1 =
      List.replicate n address ++ [address] ∧
    (listener address (List.replicate n RecvResult.message ++ RecvResult.error err :: rest)).2 =
      false ∧
    terminatedEvents
        (listener address (List.replicate n RecvResult.message ++ RecvResult.eof :: rest)).1 =
      List.replicate n address ∧
    (listener address (List.replicate n RecvResult.message ++ RecvResult.eof :: rest)).2 =
      false := by
  have h1 := listener_messages address n (RecvResult.error err :: rest)
  have h2 := listener_messages address n (RecvResult.eof :: rest)
  refine ⟨rfl, rfl, ?_, ?_, ?_, ?_⟩
  · rw [h1.1]; rfl
  · rw [h1.2]; rfl
  · rw [h2.1]; simp [listener, terminatedEvents]
  · rw [h2.2]; rfl

/-- C10: on a present stream, when some request serializes one batch is written (none
otherwise); its envelopes pair off in order with the requests that serialize, each envelope
having as targetRequestId the original requestId of the request's target and as
senderRequestId the original requestId of the request's sender (0 without sender); and every
PID in the targets and senders tables of the batch has requestId 0. -/
theorem C10_request_ids_kept_tables_normalized (ser : Serialization) (state : endpointWriter)
    (sendErr : Option String) (s : String) (hs : state.stream = some s)
    (rds : List remoteDeliver) :
    (rds.filter (fun rd => (serialized ser 0 rd).isSome) = [] →
      sentBatches (sendEnvelopes ser state sendErr (rds.map Msg.deliver)) = []) ∧
    (rds.filter (fun rd => (serialized ser 0 rd).isSome) ≠ [] →
      ∃ b, sentBatches (sendEnvelopes ser state sendErr (rds.map Msg.deliver)) = [b] ∧
        List.Forall₂
          (fun e rd => e.TargetRequestId = rd.target.RequestId ∧
            e.SenderRequestId = (match rd.sender with
              | some p => p.RequestId
              | none => 0))
          b.Envelopes (rds.filter (fun rd => (serialized ser 0 rd).isSome)) ∧
        (∀ p ∈ b.Targets, p.RequestId = 0) ∧ (∀ p ∈ b.Senders, p.RequestId = 0)) := by
  obtain ⟨h0, h1, h2⟩ := sentBatches_deliver ser state sendErr s hs rds
  refine ⟨h0, ?_⟩
  intro hne
  have hnorm := encodeAll_normalized ser rds EncState.init
    (fun p hp => by simp [EncState.init] at hp) (fun p hp => by simp [EncState.init] at hp)
  refine ⟨_, h1 hne, ?_, hnorm.1, hnorm.2⟩
  refine h2.imp ?_
  intro e rd hc
  obtain ⟨r, _, _, _, _, ht, hsd⟩ := hc
  refine ⟨ht, ?_⟩
  rw [hsd]
  unfold senderRequestId
  cases rd.sender <;> rfl

/-- C10 (witness): two requests with request ids 5, 6 on the senders. -/
theorem C10_request_ids_witness :
    connectedWriter.stream = some "http://host:1" ∧
    ∃ b, sentBatches (sendEnvelopes sampleSer connectedWriter none
        ([reqFirstOfKey, reqSlashInId].map Msg.deliver)) = [b] ∧
      List.Forall₂
        (fun e rd => e.TargetRequestId = rd.target.RequestId ∧
          e.SenderRequestId = (match rd.sender with
            | some p => p.RequestId
            | none => 0))
        b.Envelopes ([reqFirstOfKey, reqSlashInId].filter
          (fun rd => (serialized sampleSer 0 rd).isSome)) ∧
      (∀ p ∈ b.Targets, p.RequestId = 0) ∧ (∀ p ∈ b.Senders, p.RequestId = 0) :=
  ⟨rfl, (C10_request_ids_kept_tables_normalized sampleSer connectedWriter none "http://host:1"
    rfl [reqFirstOfKey, reqSlashInId]).2 (by decide)⟩

/-- C11: for every list made of requests, an EndpointTerminatedEvent (by pointer or by value)
and anything after it, whatever the stream: the effects are those of the requests before the
event, among which there is no stop, no stash and no write on the stream, followed by the log
line of the event and one request to stop the writer. They are the same for every
continuation of the list after the event, and no batch is written: the envelopes built from
the requests before the event are not flushed. -/
theorem C11_terminate_event_aborts_batch (ser : Serialization) (state : endpointWriter)
    (rds : List remoteDeliver) (address : String) :
    ∃ pre, Effect.stop ∉ pre ∧ Effect.stash ∉ pre ∧ (∀ b, Effect.streamSend b ∉ pre) ∧
      ∀ (sendErr : Option String) (rest : List Msg),
        sendEnvelopes ser state sendErr
            (rds.map Msg.deliver ++ Msg.terminatedPtr address :: rest) =
          pre ++ [Effect.log "Handling array wrapped terminate event", Effect.stop] ∧
        sendEnvelopes ser state sendErr
            (rds.map Msg.deliver ++ Msg.terminatedVal address :: rest) =
          pre ++ [Effect.log "Handling array wrapped terminate event", Effect.stop] ∧
        sentBatches (sendEnvelopes ser state sendErr
            (rds.map Msg.deliver ++ Msg.terminatedPtr address :: rest)) = [] ∧
        sentBatches (sendEnvelopes ser state sendErr
            (rds.map Msg.deliver ++ Msg.terminatedVal address :: rest)) = [] := by
  obtain ⟨pre, st2, h1, h2, h3, hloop⟩ :=
    sendEnvelopesLoop_requests ser state rds EncState.init
  have hnone : ∀ xs : List Effect, (∀ b, Effect.streamSend b ∉ xs) → sentBatches xs = [] := by
    intro xs
    induction xs with
    | nil => intro _; rfl
    | cons x more ih =>
      intro hx
      have hmore := ih (fun b hb => hx b (List.mem_cons_of_mem _ hb))
      cases x with
      | streamSend b => exact absurd (List.mem_cons_self _ _) (hx b)
      | _ => exact hmore
  have hpre : ∀ b, Effect.streamSend b ∉
      pre ++ [Effect.log "Handling array wrapped terminate event", Effect.stop] := by
    intro b hb
    rcases List.mem_append.mp hb with hb | hb
    · exact h3 b hb
    · simp at hb
  refine ⟨pre, h1, h2, h3, ?_⟩
  intro sendErr rest
  have hp : sendEnvelopes ser state sendErr
      (rds.map Msg.deliver ++ Msg.terminatedPtr address :: rest) =
        pre ++ [Effect.log "Handling array wrapped terminate event", Effect.stop] := by
    unfold sendEnvelopes
    rw [hloop]
    rfl
  have hv : sendEnvelopes ser state sendErr
      (rds.map Msg.deliver ++ Msg.terminatedVal address :: rest) =
        pre ++ [Effect.log "Handling array wrapped terminate event", Effect.stop] := by
    unfold sendEnvelopes
    rw [hloop]
    rfl
  refine ⟨hp, hv, ?_, ?_⟩
  · rw [hp]; exact hnone _ hpre
  · rw [hv]; exact hnone _ hpre

/-- C12: on a present stream, for every list of requests of which at least one serializes (so
that the batch is not empty), there are log lines `logs` and a batch `b` such that the
effects are `logs`, the write of `b`, and then, when the write returns an error, `ctx.Stash()`
followed by a log line and `ctx.Stop(ctx.Self())`, with no second write; when the write
succeeds the effects end with the write, without stash or stop. -/
theorem C12_write_error_stashes_and_stops (ser : Serialization) (state : endpointWriter)
    (s : String) (hs : state.stream = some s) (rds : List remoteDeliver)
    (hne : rds.filter (fun rd => (serialized ser 0 rd).isSome) ≠ []) (err : String) :
    ∃ logs b, (∀ e ∈ logs, ∃ t, e = Effect.log t) ∧
      sendEnvelopes ser state (some err) (rds.map Msg.deliver) =
        logs ++ [Effect.streamSend b, Effect.stash, Effect.log "gRPC Failed to send",
          Effect.stop] ∧
      sendEnvelopes ser state none (rds.map Msg.deliver) = logs ++ [Effect.streamSend b] := by
  obtain ⟨logs, hlogs, hloop⟩ := sendEnvelopesLoop_present ser state s hs rds EncState.init
  obtain ⟨es, hes, hall⟩ := encodeAll_envelopes ser 0 rds EncState.init rfl
  have hlen : (encodeAll ser EncState.init rds).envelopes.length ≠ 0 := by
    rw [hes]
    show ([] ++ es).length ≠ 0
    rw [List.nil_append, hall.length_eq]
    exact fun h => hne (List.length_eq_zero.mp h)
  refine ⟨logs, (encodeAll ser EncState.init rds).batch, hlogs, ?_, ?_⟩
  · have := hloop (some err) []
    rw [List.append_nil] at this
    unfold sendEnvelopes
    rw [this]
    simp [sendEnvelopesLoop, flushBatch, hlen]
  · have := hloop none []
    rw [List.append_nil] at this
    unfold sendEnvelopes
    rw [this]
    simp [sendEnvelopesLoop, flushBatch, hlen]

/-- C12 (witness): one request on a present stream whose write fails. -/
theorem C12_write_error_witness :
    connectedWriter.stream = some "http://host:1" ∧
    [reqSerializerOne].filter (fun rd => (serialized sampleSer 0 rd).isSome) ≠ [] ∧
    ∃ logs b, (∀ e ∈ logs, ∃ t, e = Effect.log t) ∧
      sendEnvelopes sampleSer connectedWriter (some "broken pipe")
          ([reqSerializerOne].map Msg.deliver) =
        logs ++ [Effect.streamSend b, Effect.stash, Effect.log "gRPC Failed to send",
          Effect.stop] ∧
      sendEnvelopes sampleSer connectedWriter none ([reqSerializerOne].map Msg.deliver) =
        logs ++ [Effect.streamSend b] :=
  ⟨rfl, by decide,
    C12_write_error_stashes_and_stops sampleSer connectedWriter "http://host:1" rfl
      [reqSerializerOne] (by decide) "broken pipe"⟩

/-- C13: on a present stream, for every list of requests: (1) when no request serializes, the
effects are log lines only, so nothing is written on the stream and there is no stash, stop
or panic; (2) otherwise one batch is written; its typeNames table is the list of the type
names of the requests that serialize with duplicates erased, each name kept at its first
occurrence, and has no duplicates; the envelopes pair off in order with the requests that
serialize, and for each the type name of the request is in the table and the typeIndex is the
position of its first (only) occurrence there, converted to int32, which is the position
itself when the table has at most 2^31 entries. -/
theorem C13_type_names_in_first_seen_order (ser : Serialization) (state : endpointWriter)
    (sendErr : Option String) (s : String) (hs : state.stream = some s)
    (rds : List remoteDeliver) :
    (rds.filter (fun rd => (serialized ser 0 rd).isSome) = [] →
      sentBatches (sendEnvelopes ser state sendErr (rds.map Msg.deliver)) = [] ∧
      ∀ e ∈ sendEnvelopes ser state sendErr (rds.map Msg.deliver), ∃ t, e = Effect.log t) ∧
    (rds.filter (fun rd => (serialized ser 0 rd).isSome) ≠ [] →
      ∃ b, sentBatches (sendEnvelopes ser state sendErr (rds.map Msg.deliver)) = [b] ∧
        b.TypeNames = (serializedTypeNames ser 0 rds).eraseDups ∧
        b.TypeNames.Nodup ∧
        List.Forall₂
          (fun e rd => ∃ r, serialized ser 0 rd = some r ∧ r.2 ∈ b.TypeNames ∧
            e.TypeId = int32 ((b.TypeNames.indexOf r.2 : Nat) : Int) ∧
            (b.TypeNames.length ≤ 2147483648 →
              e.TypeId = ((b.TypeNames.indexOf r.2 : Nat) : Int)))
          b.Envelopes (rds.filter (fun rd => (serialized ser 0 rd).isSome))) := by
  obtain ⟨h0, h1, _⟩ := sentBatches_deliver ser state sendErr s hs rds
  refine ⟨fun h => ⟨h0 h, sendEnvelopes_nothing_serialized ser state sendErr s hs rds h⟩, ?_⟩
  intro hne
  obtain ⟨hinv, harr, es, hes, hall⟩ :=
    encodeAll_types ser 0 rds EncState.init rfl tableInv_empty
  refine ⟨_, h1 hne, ?_, hinv.2.1, ?_⟩
  · show (encodeAll ser EncState.init rds).typeNamesArr = _
    rw [harr, eraseDups_eq_foldl]
    rfl
  · have henv : (encodeAll ser EncState.init rds).batch.Envelopes = es := by
      show (encodeAll ser EncState.init rds).envelopes = es
      rw [hes]; rfl
    rw [henv]
    refine hall.imp ?_
    intro e rd hc
    obtain ⟨r, hr, hmem, hid⟩ := hc
    refine ⟨r, hr, hmem, hid, ?_⟩
    intro hbound
    rw [hid]
    apply int32_of_lt
    have := List.indexOf_lt_length.mpr hmem
    exact Nat.lt_of_lt_of_le this hbound

/-- C13 (witness): four requests with type names even, odd, (rejected), even. -/
theorem C13_type_names_witness :
    connectedWriter.stream = some "http://host:1" ∧
    serializedTypeNames sampleSer 0
        [reqFromNodeSlash, reqFirstOfKey, reqUnserializable, reqSerializerOne] =
      ["even", "odd", "even"] ∧
    ∃ b, sentBatches (sendEnvelopes sampleSer connectedWriter none
        ([reqFromNodeSlash, reqFirstOfKey, reqUnserializable, reqSerializerOne].map
          Msg.deliver)) = [b] ∧
      b.TypeNames = ["even", "odd"] ∧
      b.Envelopes.map (fun e => e.TypeId) = [0, 1, 0] := by
  obtain ⟨b, hb, hnames, _, _⟩ :=
    (C13_type_names_in_first_seen_order sampleSer connectedWriter none "http://host:1" rfl
      [reqFromNodeSlash, reqFirstOfKey, reqUnserializable, reqSerializerOne]).2 (by decide)
  have hsent : sentBatches (sendEnvelopes sampleSer connectedWriter none
      ([reqFromNodeSlash, reqFirstOfKey, reqUnserializable, reqSerializerOne].map
        Msg.deliver)) =
      [{ TypeNames := ["even", "odd"]
         Targets := [⟨"host:1", "worker", 0⟩, ⟨"n1/x", "y", 0⟩]
         Senders := [⟨"node/1", "client", 0⟩, ⟨"s/t", "u", 0⟩]
         Envelopes := [⟨none, [4, 0], 1, 0, 0, 0, 0, 1⟩, ⟨none, [1, 0], 2, 1, 1, 0, 0, 5⟩,
           ⟨none, [8, 0], 0, 0, 0, 0, 0, 0⟩] }] := by decide
  rw [hsent] at hb
  have hbeq := (List.cons.inj hb).1
  refine ⟨rfl, by decide, b, ?_, ?_, ?_⟩
  · rw [hsent, ← hbeq]
  · rw [← hbeq]
  · rw [← hbeq]; decide

/-- C14, evaluated at failing inputs: with server TLS material 1 and client TLS material 2
configured, the server built by `Start` has the client material 2 as its TLS configuration;
with only the server material configured it has none. -/
theorem C14_server_built_with_client_tls :
    (Configure "localhost" 8080
        [WithCServerTlsConfig (some 1), WithClientTlsConfig (some 2)]).ConnectServerTLSConfig =
      some 1 ∧
    (Start (Configure "localhost" 8080
        [WithCServerTlsConfig (some 1), WithClientTlsConfig (some 2)]) "127.0.0.1:8080").TLSConfig =
      some 2 ∧
    (Start (Configure "localhost" 8080 [WithCServerTlsConfig (some 1)])
        "127.0.0.1:8080").TLSConfig = none := by
  refine ⟨?_, ?_, ?_⟩ <;> decide

/-- C15, evaluated at a failing input: with `MaxRetryCount = 1` and a failing attempt,
`initialize` leaves the opened stream in the writer. A request with a sender received
afterwards is encoded and written on that stream (here the write fails, so the list is
stashed and the writer stopped); no DeadLetterResponse is sent to the sender. -/
theorem C15_stream_kept_after_failed_connect :
    (initializeWriter oneTryWriter (fun _ => Handshake.receiveError "refused")).1.stream =
      some "http://host:1" ∧
    (Receive sampleSer (fun _ => Handshake.receiveError "refused") (some "stream closed")
        (initializeWriter oneTryWriter (fun _ => Handshake.receiveError "refused")).1
        (ActorMessage.batch [Msg.deliver reqFromNodeSlash])).2 =
      [Effect.streamSend
         { TypeNames := ["even"]
           Targets := [⟨"host:1", "worker", 0⟩]
           Senders := [⟨"node/1", "client", 0⟩]
           Envelopes := [⟨none, [4, 0], 1, 0, 0, 0, 0, 1⟩] },
       Effect.stash, Effect.log "gRPC Failed to send", Effect.stop] := by
  constructor
  · decide
  · decide

end Remote
